import Mathlib

/-!
Verification of the `lib/sampler` statistics-sampling runtime
(`rte_sampler.c`) against its natural-language specification.

The C code is shallowly embedded: strings are `List Char`, the dynamically
allocated arrays of a source are Lean lists (with `[]` standing for a NULL
pointer), machine integers are `Nat`/`Int`, and every fallible external
collaborator (the memory allocator, the source adapter, the sink callbacks)
is an explicit oracle argument.
-/

namespace Sampler

/-- errno value used by the C code for invalid arguments. -/
def EINVAL : Int := 22

/-- errno value used by the C code for allocation failure. -/
def ENOMEM : Int := 12

/-! ## The wildcard pattern matcher (`match_pattern`, rte_sampler.c:839-872) -/

/-- Skip a run of consecutive `*` characters at the head of a pattern.
This models the C pointer advance `while (*(pattern + 1) == '*') pattern++;`
(applied to the tail) as well as the trailing-asterisk skip
`while (*pattern == '*') pattern++;`. -/
def dropStars : List Char → List Char
  | [] => []
  | c :: p => if c = '*' then dropStars p else c :: p

theorem dropStars_length_le (p : List Char) : (dropStars p).length ≤ p.length := by
  induction p with
  | nil => simp [dropStars]
  | cons c p ih =>
    simp only [dropStars]
    by_cases h : c = '*'
    · simp only [if_pos h]
      exact Nat.le_trans ih (Nat.le_succ _)
    · simp [if_neg h]

theorem dropStars_head_ne_star (p : List Char) :
    ∀ c r, dropStars p = c :: r → c ≠ '*' := by
  induction p with
  | nil => intro c r h; simp [dropStars] at h
  | cons a p ih =>
    intro c r h
    simp only [dropStars] at h
    by_cases ha : a = '*'
    · rw [if_pos ha] at h
      exact ih c r h
    · rw [if_neg ha] at h
      injection h with h1 _
      rw [← h1]
      exact ha

mutual

/-- Shallow embedding of `match_pattern` (rte_sampler.c:839-872).
The outer `while (*pattern && *str)` loop is the recursion; the final
`while (*pattern == '*') pattern++;  return (*pattern == 0 && *str == 0);`
is the second equation. -/
def matchPat : List Char → List Char → Bool
  | [], s => s.isEmpty
  | c :: p, [] => (dropStars (c :: p)).isEmpty
  | c :: p, d :: s =>
    if c = '*' then
      -- skip consecutive asterisks; if asterisk is the last character, match
      if (dropStars p).isEmpty then true
      -- try matching rest of pattern with every non-empty tail of the string
      else tryStar (dropStars p) (d :: s)
    else if c = '?' ∨ c = d then matchPat p s
    else false
termination_by p s => 2 * (p.length + s.length)
decreasing_by
  all_goals simp_wf
  all_goals try omega
  all_goals (have h := dropStars_length_le p; omega)

/-- The inner `while (*str) { if (match_pattern(pattern + 1, str)) return 1; str++; }`
loop of `match_pattern`. -/
def tryStar : List Char → List Char → Bool
  | _, [] => false
  | p, d :: s => matchPat p (d :: s) || tryStar p s
termination_by p s => 2 * (p.length + s.length) + 1
decreasing_by
  all_goals simp_wf
  all_goals omega

end

/-- The specification-level matcher, written from the spec's words:
`?` matches exactly one character, `*` matches zero or more characters,
and the pattern must consume the entire name. -/
def globMatch : List Char → List Char → Bool
  | [], [] => true
  | [], _ :: _ => false
  | c :: p, [] => if c = '*' then globMatch p [] else false
  | c :: p, d :: s =>
    if c = '*' then globMatch p (d :: s) || globMatch (c :: p) s
    else if c = '?' ∨ c = d then globMatch p s
    else false
termination_by p s => p.length + s.length
decreasing_by
  all_goals simp_wf
  all_goals omega

theorem globMatch_nil_right (p : List Char) : globMatch p [] = (dropStars p).isEmpty := by
  induction p with
  | nil => simp [globMatch, dropStars]
  | cons c p ih =>
    by_cases h : c = '*'
    · simp [globMatch, dropStars, h, ih]
    · simp [globMatch, dropStars, h]

theorem globMatch_star_star (p : List Char) :
    ∀ s, globMatch ('*' :: '*' :: p) s = globMatch ('*' :: p) s := by
  intro s
  induction s with
  | nil => simp [globMatch]
  | cons d s ih =>
    simp only [globMatch, if_pos rfl]
    rw [ih]
    cases h1 : globMatch p (d :: s) <;> cases h2 : globMatch ('*' :: p) s <;>
      simp [globMatch, h1, h2]

theorem globMatch_star_nil_pat (s : List Char) : globMatch ['*'] s = true := by
  induction s with
  | nil => simp [globMatch]
  | cons d s ih => simp [globMatch, ih]

theorem globMatch_star_dropStars (p : List Char) :
    ∀ s, globMatch ('*' :: dropStars p) s = globMatch ('*' :: p) s := by
  induction p with
  | nil => intro s; simp [dropStars]
  | cons c p ih =>
    intro s
    by_cases h : c = '*'
    · subst h
      rw [show dropStars ('*' :: p) = dropStars p from by simp [dropStars]]
      rw [ih s]
      exact (globMatch_star_star p s).symm
    · simp [dropStars, h]

theorem globMatch_star_iff (p : List Char) :
    ∀ s, globMatch ('*' :: p) s = true ↔
      ∃ n, n ≤ s.length ∧ globMatch p (s.drop n) = true := by
  intro s
  induction s with
  | nil =>
    constructor
    · intro h
      refine ⟨0, Nat.le_refl 0, ?_⟩
      simpa [globMatch] using h
    · rintro ⟨n, hn, h⟩
      have hn0 : n = 0 := Nat.le_zero.mp hn
      subst hn0
      simpa [globMatch] using h
  | cons d s ih =>
    constructor
    · intro h
      rw [show globMatch ('*' :: p) (d :: s)
            = (globMatch p (d :: s) || globMatch ('*' :: p) s) from by
          simp [globMatch]] at h
      rcases Bool.or_eq_true_iff.mp h with h | h
      · exact ⟨0, Nat.zero_le _, h⟩
      · rcases ih.mp h with ⟨n, hn, hg⟩
        exact ⟨n + 1, Nat.succ_le_succ hn, by simpa using hg⟩
    · rintro ⟨n, hn, h⟩
      rw [show globMatch ('*' :: p) (d :: s)
            = (globMatch p (d :: s) || globMatch ('*' :: p) s) from by
          simp [globMatch]]
      cases n with
      | zero => exact Bool.or_eq_true_iff.mpr (Or.inl (by simpa using h))
      | succ n =>
        refine Bool.or_eq_true_iff.mpr (Or.inr (ih.mpr ⟨n, ?_, ?_⟩))
        · simp only [List.length_cons] at hn; omega
        · simpa using h

theorem globMatch_cons_nil_ne_star {c : Char} (p : List Char) (h : c ≠ '*') :
    globMatch (c :: p) [] = false := by
  simp [globMatch, h]

theorem tryStar_iff (q : List Char)
    (hq : ∀ t, matchPat q t = globMatch q t)
    (hhead : ∀ c r, q = c :: r → c ≠ '*') (hne : q ≠ []) :
    ∀ s, tryStar q s = true ↔ ∃ n, n < s.length ∧ globMatch q (s.drop n) = true := by
  intro s
  induction s with
  | nil =>
    simp [tryStar]
  | cons d s ih =>
    constructor
    · intro h
      rw [show tryStar q (d :: s) = (matchPat q (d :: s) || tryStar q s) from by
          simp [tryStar]] at h
      rcases Bool.or_eq_true_iff.mp h with h | h
      · exact ⟨0, Nat.succ_pos _, by rw [← hq]; simpa using h⟩
      · rcases ih.mp h with ⟨n, hn, hg⟩
        exact ⟨n + 1, Nat.succ_lt_succ hn, by simpa using hg⟩
    · rintro ⟨n, hn, h⟩
      rw [show tryStar q (d :: s) = (matchPat q (d :: s) || tryStar q s) from by
          simp [tryStar]]
      cases n with
      | zero =>
        refine Bool.or_eq_true_iff.mpr (Or.inl ?_)
        rw [hq]
        simpa using h
      | succ n =>
        refine Bool.or_eq_true_iff.mpr (Or.inr (ih.mpr ⟨n, ?_, ?_⟩))
        · simp only [List.length_cons] at hn; omega
        · simpa using h

theorem matchPat_eq_globMatch_aux :
    ∀ N p s, p.length ≤ N → matchPat p s = globMatch p s := by
  intro N
  induction N with
  | zero =>
    intro p s hp
    have hp0 : p = [] := List.length_eq_zero.mp (Nat.le_zero.mp hp)
    subst hp0
    cases s <;> simp [matchPat, globMatch]
  | succ N ih =>
    intro p s hp
    match p with
    | [] => cases s <;> simp [matchPat, globMatch]
    | c :: p =>
      by_cases hc : c = '*'
      · subst hc
        cases s with
        | nil =>
          rw [show matchPat ('*' :: p) [] = (dropStars ('*' :: p)).isEmpty from by
              simp [matchPat]]
          rw [globMatch_nil_right]
        | cons d s =>
          have hql : (dropStars p).length ≤ N := by
            have := dropStars_length_le p
            simp at hp
            omega
          have hq : ∀ t, matchPat (dropStars p) t = globMatch (dropStars p) t :=
            fun t => ih (dropStars p) t hql
          by_cases hq0 : (dropStars p).isEmpty
          · have h1 : dropStars p = [] := by
              cases he : dropStars p
              · rfl
              · rw [he] at hq0; simp at hq0
            rw [show matchPat ('*' :: p) (d :: s) = true from by
                simp [matchPat, hq0]]
            rw [← globMatch_star_dropStars p (d :: s), h1, globMatch_star_nil_pat]
          · have hne : dropStars p ≠ [] := by
              intro he; rw [he] at hq0; simp at hq0
            rw [show matchPat ('*' :: p) (d :: s) = tryStar (dropStars p) (d :: s) from by
                simp [matchPat, hq0]]
            rw [← globMatch_star_dropStars p (d :: s)]
            have hhead := dropStars_head_ne_star p
            have htry := tryStar_iff (dropStars p) hq hhead hne (d :: s)
            have hstar := globMatch_star_iff (dropStars p) (d :: s)
            cases hL : tryStar (dropStars p) (d :: s) <;>
              cases hR : globMatch ('*' :: dropStars p) (d :: s)
            · rfl
            · exfalso
              rcases hstar.mp hR with ⟨n, hn, hg⟩
              rcases Nat.lt_or_ge n (d :: s).length with hlt | hge
              · have : tryStar (dropStars p) (d :: s) = true :=
                  htry.mpr ⟨n, hlt, hg⟩
                rw [hL] at this; exact Bool.false_ne_true this
              · have hdrop : (d :: s).drop n = [] :=
                  List.drop_eq_nil_of_le hge
                rw [hdrop] at hg
                cases he : dropStars p with
                | nil => exact hne he
                | cons c' r' =>
                  rw [he] at hg
                  rw [globMatch_cons_nil_ne_star r' (hhead c' r' he)] at hg
                  exact Bool.false_ne_true hg
            · exfalso
              rcases htry.mp hL with ⟨n, hn, hg⟩
              have : globMatch ('*' :: dropStars p) (d :: s) = true :=
                hstar.mpr ⟨n, Nat.le_of_lt hn, hg⟩
              rw [hR] at this; exact Bool.false_ne_true this
            · rfl
      · cases s with
        | nil =>
          rw [show matchPat (c :: p) [] = (dropStars (c :: p)).isEmpty from by
              simp [matchPat]]
          rw [show dropStars (c :: p) = c :: p from by simp [dropStars, hc]]
          simp [globMatch, hc]
        | cons d s =>
          have hps : p.length ≤ N := by simp at hp; omega
          by_cases hcd : c = '?' ∨ c = d
          · rw [show matchPat (c :: p) (d :: s) = matchPat p s from by
                simp [matchPat, hc, hcd]]
            rw [show globMatch (c :: p) (d :: s) = globMatch p s from by
                simp [globMatch, hc, hcd]]
            exact ih p s hps
          · rw [show matchPat (c :: p) (d :: s) = false from by
                simp [matchPat, hc, hcd]]
            rw [show globMatch (c :: p) (d :: s) = false from by
                simp [globMatch, hc, hcd]]

theorem matchPat_eq_globMatch (p s : List Char) : matchPat p s = globMatch p s :=
  matchPat_eq_globMatch_aux p.length p s (Nat.le_refl _)


theorem globMatch_star_skip (q t : List Char) (h : globMatch q t = true) :
    globMatch ('*' :: q) t = true := by
  cases t with
  | nil => simpa [globMatch] using h
  | cons d t => simp [globMatch, h]

theorem globMatch_append_star_aux :
    ∀ N p s, p.length + s.length ≤ N → globMatch p s = true →
      ∀ t, globMatch (p ++ ['*']) (s ++ t) = true := by
  intro N
  induction N with
  | zero =>
    intro p s hN h t
    have hp : p = [] := by
      cases p
      · rfl
      · simp at hN
    have hs : s = [] := by
      cases s
      · rfl
      · simp at hN
    subst hp; subst hs
    simpa using globMatch_star_nil_pat t
  | succ N ih =>
    intro p s hN h t
    match p with
    | [] =>
      cases s with
      | nil => simpa using globMatch_star_nil_pat t
      | cons d s => simp [globMatch] at h
    | c :: p =>
      by_cases hc : c = '*'
      · subst hc
        cases s with
        | nil =>
          have h1 : globMatch p [] = true := by simpa [globMatch] using h
          have h2 := ih p [] (by simp at hN ⊢; omega) h1 t
          simpa using globMatch_star_skip (p ++ ['*']) t (by simpa using h2)
        | cons d s =>
          rw [show globMatch ('*' :: p) (d :: s)
                = (globMatch p (d :: s) || globMatch ('*' :: p) s) from by
              simp [globMatch]] at h
          rcases Bool.or_eq_true_iff.mp h with h | h
          · have h2 := ih p (d :: s) (by simp at hN ⊢; omega) h t
            simpa using globMatch_star_skip (p ++ ['*']) ((d :: s) ++ t) (by simpa using h2)
          · have h2 := ih ('*' :: p) s (by simp at hN ⊢; omega) h t
            rw [show ('*' :: p) ++ ['*'] = '*' :: (p ++ ['*']) from rfl] at h2 ⊢
            rw [show ((d :: s) ++ t) = d :: (s ++ t) from rfl]
            rw [show globMatch ('*' :: (p ++ ['*'])) (d :: (s ++ t))
                  = (globMatch (p ++ ['*']) (d :: (s ++ t)) || globMatch ('*' :: (p ++ ['*'])) (s ++ t)) from by
              simp [globMatch]]
            exact Bool.or_eq_true_iff.mpr (Or.inr h2)
      · cases s with
        | nil =>
          rw [globMatch_cons_nil_ne_star p hc] at h
          exact absurd h (by simp)
        | cons d s =>
          by_cases hcd : c = '?' ∨ c = d
          · rw [show globMatch (c :: p) (d :: s) = globMatch p s from by
                simp [globMatch, hc, hcd]] at h
            have h2 := ih p s (by simp at hN ⊢; omega) h t
            rw [show ((c :: p) ++ ['*']) = c :: (p ++ ['*']) from rfl]
            rw [show ((d :: s) ++ t) = d :: (s ++ t) from rfl]
            rw [show globMatch (c :: (p ++ ['*'])) (d :: (s ++ t))
                  = globMatch (p ++ ['*']) (s ++ t) from by simp [globMatch, hc, hcd]]
            exact h2
          · rw [show globMatch (c :: p) (d :: s) = false from by
                simp [globMatch, hc, hcd]] at h
            exact absurd h (by simp)

/-- C3: `match_pattern(pattern, name)` returns true iff the pattern, interpreted
with `?` matching exactly one character and `*` matching zero or more characters
(consecutive `*`s equivalent to one), consumes the entire name; in particular the
empty pattern matches only the empty name, a pattern ending in `*` matches any
name extending a matched prefix, and the pattern `"*"` matches every name
including the empty one. -/
theorem match_pattern_spec :
    (∀ pattern str, matchPat pattern str = globMatch pattern str)
    ∧ (∀ p str, matchPat ('*' :: '*' :: p) str = matchPat ('*' :: p) str)
    ∧ (∀ str, matchPat [] str = str.isEmpty)
    ∧ (∀ p s t, globMatch p s = true → matchPat (p ++ ['*']) (s ++ t) = true)
    ∧ (∀ str, matchPat ['*'] str = true) := by
  refine ⟨matchPat_eq_globMatch, ?_, ?_, ?_, ?_⟩
  · intro p str
    rw [matchPat_eq_globMatch, matchPat_eq_globMatch, globMatch_star_star]
  · intro str
    cases str <;> simp [matchPat]
  · intro p s t h
    rw [matchPat_eq_globMatch]
    exact globMatch_append_star_aux (p.length + s.length) p s (Nat.le_refl _) h t
  · intro str
    rw [matchPat_eq_globMatch]
    exact globMatch_star_nil_pat str

theorem match_pattern_spec_witness :
    globMatch ['a'] ['a'] = true
    ∧ matchPat (['a'] ++ ['*']) (['a'] ++ ['b', 'c']) = true := by
  constructor
  · simp [globMatch]
  · exact match_pattern_spec.2.2.2.1 ['a'] ['a'] ['b', 'c'] (by simp [globMatch])


/-! ## Data model (rte_sampler.c:19-84) -/

/-- One xstat advertised by a source adapter: a 0-terminated name and an id. -/
structure Stat where
  name : List Char
  id : Nat
deriving DecidableEq, Repr

/-- Result of one adapter callback: a negative errno, or a success payload. -/
inductive AdapterRes (α : Type) where
  | err (code : Int)
  | ok (val : α)
deriving DecidableEq, Repr

/-- Shallow embedding of `struct rte_sampler_source` (rte_sampler.c:22-41).
Dynamically allocated arrays are lists, `[]` standing for NULL; `has_reset`
records whether `ops.xstats_reset` is non-NULL.  The session back-pointer is
implicit (a source is stored inside its session's `sources` list). -/
structure Source where
  name : List Char
  source_id : Nat
  has_reset : Bool
  xstats_names : List (List Char)
  ids : List Nat
  values : List Nat
  xstats_count : Nat
  xstats_capacity : Nat
  filter_patterns : List (Option (List Char))
  num_filter_patterns : Nat
  filter_patterns_capacity : Nat
  filtered_ids : List Nat
  filtered_count : Nat
  filter_active : Bool
  valid : Bool
deriving DecidableEq, Repr

/-- The all-zero source record (`rte_zmalloc` / `memset(source, 0, ...)`). -/
def defaultSource : Source :=
  { name := [], source_id := 0, has_reset := false, xstats_names := [], ids := [],
    values := [], xstats_count := 0, xstats_capacity := 0, filter_patterns := [],
    num_filter_patterns := 0, filter_patterns_capacity := 0, filtered_ids := [],
    filtered_count := 0, filter_active := false, valid := false }

instance : Inhabited Source := ⟨defaultSource⟩

/-- The source record produced by `rte_sampler_source_register`
(rte_sampler.c:357-365): memset to zero, then name/id/ops/valid set. -/
def freshSource (nm : List Char) (sid : Nat) (hasReset : Bool) : Source :=
  { defaultSource with name := nm, source_id := sid, has_reset := hasReset, valid := true }

/-- Write `new` into the front of array `dst`, keeping `dst`'s length: models a
callee filling the first `new.length` slots of a C buffer of fixed size. -/
def writeArr {α : Type} (dst new : List α) : List α :=
  new.take dst.length ++ dst.drop (min new.length dst.length)

/-- Write the first `n` entries of `new` into the front of `dst`. -/
def writeN {α : Type} (dst new : List α) (n : Nat) : List α :=
  writeArr dst (new.take n)

/-- Free (NULL out) the first `n` pattern slots: models the
`for (i = 0; i < num_filter_patterns; i++) rte_free(filter_patterns[i]);` loops. -/
def clearUpto : List (Option (List Char)) → Nat → List (Option (List Char))
  | l, 0 => l
  | [], _ => []
  | _ :: rest, n + 1 => none :: clearUpto rest n

theorem writeArr_length {α : Type} (dst new : List α) :
    (writeArr dst new).length = dst.length := by
  simp [writeArr]
  omega

theorem writeN_length {α : Type} (dst new : List α) (n : Nat) :
    (writeN dst new n).length = dst.length := writeArr_length _ _

theorem clearUpto_length (l : List (Option (List Char))) :
    ∀ n, (clearUpto l n).length = l.length := by
  induction l with
  | nil => intro n; cases n <;> simp [clearUpto]
  | cons a l ih =>
    intro n
    cases n with
    | zero => simp [clearUpto]
    | succ n => simp [clearUpto, ih n]

/-! ## Filtering (rte_sampler.c:877-915) -/

/-- The live (non-freed) pattern strings of a source: the spec's "stored
filter patterns". -/
def livePatterns (s : Source) : List (List Char) :=
  (s.filter_patterns.take s.num_filter_patterns).reduceOption

/-- Shallow embedding of `matches_filter` (rte_sampler.c:877-891).  A freed
slot (modelled `none`) is read as the empty pattern. -/
def matchesFilter (s : Source) (nm : List Char) : Bool :=
  if s.filter_active = false ∨ s.num_filter_patterns = 0 then true
  else (s.filter_patterns.take s.num_filter_patterns).any
    (fun p => matchPat (p.getD []) nm)

/-- The cached (name, id) table of a source: entries `0 ≤ i < xstats_count`. -/
def cachedPairs (s : Source) : List (List Char × Nat) :=
  (s.xstats_names.take s.xstats_count).zip (s.ids.take s.xstats_count)

/-- The ids of the cached stats whose name passes the filter, in cache order. -/
def matchedIds (s : Source) : List Nat :=
  ((cachedPairs s).filter (fun p => matchesFilter s p.1)).map (fun p => p.2)

/-- The meaningful prefix `filtered_ids[0..filtered_count)`. -/
def filteredPart (s : Source) : List Nat :=
  s.filtered_ids.take s.filtered_count

/-- The meaningful prefix `ids[0..xstats_count)`. -/
def idsPart (s : Source) : List Nat :=
  s.ids.take s.xstats_count

/-- Shallow embedding of `apply_filter` (rte_sampler.c:896-915). -/
def apply_filter (s : Source) : Source :=
  if s.filter_active = false then
    { s with filtered_count := s.xstats_count,
             filtered_ids := writeArr s.filtered_ids (s.ids.take s.xstats_count) }
  else
    let matched := matchedIds s
    { s with filtered_ids := writeArr s.filtered_ids matched,
             filtered_count := matched.length }

/-- Shallow embedding of `rte_sampler_source_clear_filter` (rte_sampler.c:976-1000). -/
def rte_sampler_source_clear_filter (src : Source) : Int × Source :=
  if src.valid = false then (-EINVAL, src)
  else
    (0, { src with
      filter_patterns := clearUpto src.filter_patterns src.num_filter_patterns,
      num_filter_patterns := 0,
      filter_active := false,
      filtered_count := src.xstats_count,
      filtered_ids := writeArr src.filtered_ids (src.ids.take src.xstats_count) })

/-- The pattern-copy loop of `rte_sampler_source_set_filter`
(rte_sampler.c:954-965).  `copyOk i` tells whether the `rte_malloc` for
pattern `i` succeeds; on failure the code calls
`rte_sampler_source_clear_filter` and returns `-ENOMEM`. -/
def copyPatterns (copyOk : Nat → Bool) : Source → List (List Char) → Nat → Int × Source
  | src, [], _ => (0, src)
  | src, p :: rest, i =>
    if copyOk i then
      copyPatterns copyOk
        { src with filter_patterns := src.filter_patterns.set i (some p),
                   num_filter_patterns := src.num_filter_patterns + 1 }
        rest (i + 1)
    else
      (-ENOMEM, (rte_sampler_source_clear_filter src).2)

/-- The `if (num_patterns > source->filter_patterns_capacity)` grow step of
`rte_sampler_source_set_filter` (rte_sampler.c:937-951); `none` models the
`rte_zmalloc` failure (the code then returns `-ENOMEM`). -/
def setFilterGrow (src : Source) (n : Nat) (growOk : Bool) : Option Source :=
  if n > src.filter_patterns_capacity then
    if growOk then
      some { src with filter_patterns := List.replicate n none,
                      filter_patterns_capacity := n }
    else none
  else some src

/-- The tail of `rte_sampler_source_set_filter` after a successful pattern
copy (rte_sampler.c:967-973): mark the filter active and, if stats are
already cached, recompute the filtered projection. -/
def finishSetFilter (s : Source) : Int × Source :=
  let s1 : Source := { s with filter_active := true }
  if s1.xstats_count > 0 then (0, apply_filter s1) else (0, s1)

/-- The body of `rte_sampler_source_set_filter` once the argument checks have
passed (rte_sampler.c:931-973): clear the old patterns, grow the pointer
array if needed, copy the new patterns, activate and re-apply the filter. -/
def setFilterBody (src : Source) (ps : List (List Char))
    (growOk : Bool) (copyOk : Nat → Bool) : Int × Source :=
  let src1 : Source := { src with
    filter_patterns := clearUpto src.filter_patterns src.num_filter_patterns }
  match setFilterGrow src1 ps.length growOk with
  | none => (-ENOMEM, src1)
  | some src2 =>
    let r := copyPatterns copyOk { src2 with num_filter_patterns := 0 } ps 0
    if r.1 < 0 then r else finishSetFilter r.2

/-- Shallow embedding of `rte_sampler_source_set_filter` (rte_sampler.c:917-974).
`patterns = none` models a NULL `patterns` argument; `growOk` tells whether the
`rte_zmalloc` growing the pattern-pointer array succeeds. -/
def rte_sampler_source_set_filter (src : Source) (patterns : Option (List (List Char)))
    (growOk : Bool) (copyOk : Nat → Bool) : Int × Source :=
  if src.valid = false then (-EINVAL, src)
  else
    match patterns with
    | none => (-EINVAL, src)
    | some ps =>
      if ps.length = 0 then (-EINVAL, src)
      else setFilterBody src ps growOk copyOk


/-! ## C1: error behaviour of set_filter -/

theorem copyPatterns_fail (copyOk : Nat → Bool) :
    ∀ (ps : List (List Char)) (src : Source) (i j : Nat),
      src.valid = true →
      j < ps.length → (∀ k, k < j → copyOk (i + k) = true) → copyOk (i + j) = false →
      (copyPatterns copyOk src ps i).1 = -ENOMEM
      ∧ ∃ pats, (copyPatterns copyOk src ps i).2 =
          { src with filter_patterns := pats, num_filter_patterns := 0,
                     filter_active := false, filtered_count := src.xstats_count,
                     filtered_ids := writeArr src.filtered_ids (src.ids.take src.xstats_count) } := by
  intro ps
  induction ps with
  | nil =>
    intro src i j hv hj _ _
    simp at hj
  | cons p rest ih =>
    intro src i j hv hj hok hfail
    cases j with
    | zero =>
      have hf : copyOk i = false := by simpa using hfail
      rw [show copyPatterns copyOk src (p :: rest) i
            = (-ENOMEM, (rte_sampler_source_clear_filter src).2) from by
          simp [copyPatterns, hf]]
      refine ⟨rfl, ⟨clearUpto src.filter_patterns src.num_filter_patterns, ?_⟩⟩
      simp [rte_sampler_source_clear_filter, hv]
    | succ j =>
      have h0 : copyOk i = true := by
        have := hok 0 (Nat.succ_pos j)
        simpa using this
      rw [show copyPatterns copyOk src (p :: rest) i
            = copyPatterns copyOk
                { src with filter_patterns := src.filter_patterns.set i (some p),
                           num_filter_patterns := src.num_filter_patterns + 1 }
                rest (i + 1) from by
          simp [copyPatterns, h0]]
      have hok' : ∀ k, k < j → copyOk (i + 1 + k) = true := by
        intro k hk
        have := hok (k + 1) (by omega)
        rw [show i + 1 + k = i + (k + 1) from by omega]
        exact this
      have hfail' : copyOk (i + 1 + j) = false := by
        rw [show i + 1 + j = i + (j + 1) from by omega]
        exact hfail
      have hres := ih
        { src with filter_patterns := src.filter_patterns.set i (some p),
                   num_filter_patterns := src.num_filter_patterns + 1 }
        (i + 1) j hv (by simpa using hj) hok' hfail'
      exact hres

/-- C1 counterexample: a second `set_filter` that needs to grow the pattern
array and hits an allocation failure returns `-ENOMEM` but has already freed
the previously stored pattern string, so the filter state is NOT identical to
what it was before the call. -/
theorem set_filter_error_counterexample :
    (rte_sampler_source_set_filter
        (rte_sampler_source_set_filter (freshSource ['s'] 0 false)
          (some [['*']]) true (fun _ => true)).2
        (some [['a'], ['b']]) false (fun _ => true)).1 = -ENOMEM
    ∧ (rte_sampler_source_set_filter
        (rte_sampler_source_set_filter (freshSource ['s'] 0 false)
          (some [['*']]) true (fun _ => true)).2
        (some [['a'], ['b']]) false (fun _ => true)).2.filter_patterns
      ≠ (rte_sampler_source_set_filter (freshSource ['s'] 0 false)
          (some [['*']]) true (fun _ => true)).2.filter_patterns := by
  decide

/-- C1 (amended): when `rte_sampler_source_set_filter` returns `-EINVAL`
(NULL or empty pattern list) the source is left untouched; but on an
allocation failure while growing the pattern array it returns `-ENOMEM` with
the previously stored pattern strings already freed (their slots NULLed,
everything else unchanged), and on an allocation failure while copying a
pattern it returns `-ENOMEM` with the whole filter cleared as by
`clear_filter` (no patterns, filter inactive, `filtered_ids` restored to
`ids`). -/
theorem set_filter_error_state :
    ∀ (src : Source) (patterns : Option (List (List Char)))
      (growOk : Bool) (copyOk : Nat → Bool),
      src.valid = true →
      ((patterns = none ∨ patterns = some []) →
        rte_sampler_source_set_filter src patterns growOk copyOk = (-EINVAL, src))
      ∧ (∀ ps, patterns = some ps → ps ≠ [] →
          ps.length > src.filter_patterns_capacity → growOk = false →
          rte_sampler_source_set_filter src patterns growOk copyOk =
            (-ENOMEM, { src with
              filter_patterns := clearUpto src.filter_patterns src.num_filter_patterns }))
      ∧ (∀ ps j, patterns = some ps → j < ps.length →
          (∀ k, k < j → copyOk k = true) → copyOk j = false →
          (ps.length ≤ src.filter_patterns_capacity ∨ growOk = true) →
          (rte_sampler_source_set_filter src patterns growOk copyOk).1 = -ENOMEM
          ∧ ∃ pats cap, (rte_sampler_source_set_filter src patterns growOk copyOk).2 =
              { src with filter_patterns := pats, filter_patterns_capacity := cap,
                         num_filter_patterns := 0,
                         filter_active := false, filtered_count := src.xstats_count,
                         filtered_ids :=
                           writeArr src.filtered_ids (src.ids.take src.xstats_count) }) := by
  intro src patterns growOk copyOk hv
  refine ⟨?_, ?_, ?_⟩
  · rintro (h | h) <;> subst h <;> simp [rte_sampler_source_set_filter, hv]
  · intro ps hps hne hgt hgrow
    subst hps
    subst hgrow
    have hlen : ps.length ≠ 0 := by
      intro h
      exact hne (List.length_eq_zero.mp h)
    simp [rte_sampler_source_set_filter, setFilterBody, setFilterGrow, hv, hlen, hgt]
  · intro ps j hps hj hok hfail hgrow
    subst hps
    have hlen : ps.length ≠ 0 := by omega
    have hok0 : ∀ k, k < j → copyOk (0 + k) = true := by
      intro k hk
      simpa using hok k hk
    have hfail0 : copyOk (0 + j) = false := by simpa using hfail
    by_cases hcap : ps.length > src.filter_patterns_capacity
    · have hgrowOk : growOk = true := by
        rcases hgrow with h | h
        · omega
        · exact h
      subst hgrowOk
      have hred : rte_sampler_source_set_filter src (some ps) true copyOk
          = (let r := copyPatterns copyOk
              { src with filter_patterns := List.replicate ps.length none,
                         filter_patterns_capacity := ps.length,
                         num_filter_patterns := 0 } ps 0
             if r.1 < 0 then r else finishSetFilter r.2) := by
        simp only [rte_sampler_source_set_filter, setFilterBody, setFilterGrow,
          hv, hlen, hcap]
        simp [hv, hlen, hcap]
      have hcp := copyPatterns_fail copyOk ps
        { src with
            filter_patterns := List.replicate ps.length none,
            filter_patterns_capacity := ps.length,
            num_filter_patterns := 0 }
        0 j hv hj hok0 hfail0
      rcases hcp with ⟨hc1, pats, hc2⟩
      rw [hred]
      simp only [hc1]
      rw [if_pos (by norm_num [ENOMEM])]
      refine ⟨hc1, pats, ps.length, ?_⟩
      rw [hc2]
    · have hred : rte_sampler_source_set_filter src (some ps) growOk copyOk
          = (let r := copyPatterns copyOk
              { src with
                  filter_patterns := clearUpto src.filter_patterns src.num_filter_patterns,
                  num_filter_patterns := 0 } ps 0
             if r.1 < 0 then r else finishSetFilter r.2) := by
        simp only [rte_sampler_source_set_filter, setFilterBody, setFilterGrow,
          hv, hlen, hcap]
        simp [hv, hlen, hcap]
      have hcp := copyPatterns_fail copyOk ps
        { src with
            filter_patterns := clearUpto src.filter_patterns src.num_filter_patterns,
            num_filter_patterns := 0 }
        0 j hv hj hok0 hfail0
      rcases hcp with ⟨hc1, pats, hc2⟩
      rw [hred]
      simp only [hc1]
      rw [if_pos (by norm_num [ENOMEM])]
      refine ⟨hc1, pats, src.filter_patterns_capacity, ?_⟩
      rw [hc2]

theorem set_filter_error_state_witness :
    (freshSource ['s'] 0 false).valid = true
    ∧ rte_sampler_source_set_filter (freshSource ['s'] 0 false) none true (fun _ => true)
        = (-EINVAL, freshSource ['s'] 0 false) :=
  ⟨rfl, (set_filter_error_state (freshSource ['s'] 0 false) none true
      (fun _ => true) rfl).1 (Or.inl rfl)⟩


/-! ## Sinks and the sampling engine (rte_sampler.c:43-52, 467-611) -/

/-- `RTE_SAMPLER_SINK_F_NO_NAMES` (rte_sampler.h). -/
def RTE_SAMPLER_SINK_F_NO_NAMES : Nat := 1

/-- Shallow embedding of `struct rte_sampler_sink` (rte_sampler.c:46-52).
The output callback itself is an external collaborator; its per-call return
value is supplied as an oracle where needed. -/
structure Sink where
  name : List Char
  flags : Nat
  valid : Bool
deriving DecidableEq, Repr

/-- The all-zero sink record. -/
def defaultSink : Sink := { name := [], flags := 0, valid := false }

instance : Inhabited Sink := ⟨defaultSink⟩

/-- One invocation of a sink's `output` callback, with the arguments the
engine passed (rte_sampler.c:592-599). -/
structure SinkCall where
  sinkIdx : Nat
  src_name : List Char
  source_id : Nat
  names : Option (List (List Char))
  out_ids : List Nat
  out_values : List Nat
  n : Nat
deriving DecidableEq, Repr

/-- The oracle describing what the external adapter and allocator do during
one source's sampling pass:
`sizeRet` is the return of the first (size query) `xstats_names_get` call;
the four `alloc*Ok` flags tell whether the four `rte_zmalloc` calls succeed;
`fillRes` is the second `xstats_names_get` call (on success the list of
(name, id) entries written, the C return value being its length — a
conforming adapter writes at most the advertised capacity);
`getRes` is the `xstats_get` call (on success the values written). -/
structure AdapterResp where
  sizeRet : Int
  allocNamesOk : Bool
  allocIdsOk : Bool
  allocValuesOk : Bool
  allocFilteredOk : Bool
  fillRes : AdapterRes (List Stat)
  getRes : AdapterRes (List Nat)
deriving DecidableEq, Repr

/-- A conforming adapter never writes more name entries than the capacity it
was handed (`names_get` contract, rte_sampler.h). -/
def AdapterResp.Conforming (r : AdapterResp) : Prop :=
  ∀ stats, r.fillRes = AdapterRes.ok stats → stats.length ≤ r.sizeRet.toNat

/-- The lazy name-cache phase of `rte_sampler_sample` for one source
(rte_sampler.c:484-564).  Returns the updated source, whether
`xstats_names_get` was invoked, and whether the pass proceeds past the cache
phase (`false` models the C `continue` statements). -/
def cacheStats (src : Source) (resp : AdapterResp) : Source × Bool × Bool :=
  if src.xstats_count = 0 then
    if resp.sizeRet < 0 then (src, true, false)
    else if resp.sizeRet = 0 then (src, true, false)
    else
      let n := resp.sizeRet.toNat
      let src : Source := { src with xstats_capacity := n }
      if resp.allocNamesOk = false then (src, true, false)
      else
        let src : Source := { src with xstats_names := List.replicate n [] }
        if resp.allocIdsOk = false then
          ({ src with xstats_names := [] }, true, false)
        else
          let src : Source := { src with ids := List.replicate n 0 }
          if resp.allocValuesOk = false then
            ({ src with xstats_names := [], ids := [] }, true, false)
          else
            let src : Source := { src with values := List.replicate n 0 }
            if resp.allocFilteredOk = false then
              ({ src with xstats_names := [], ids := [], values := [] }, true, false)
            else
              let src : Source := { src with filtered_ids := List.replicate n 0 }
              match resp.fillRes with
              | AdapterRes.err _ =>
                ({ src with xstats_names := [], ids := [], values := [],
                            filtered_ids := [], xstats_capacity := 0 }, true, false)
              | AdapterRes.ok stats =>
                let src : Source := { src with
                  xstats_names := writeArr src.xstats_names (stats.map (fun st => st.name)),
                  ids := writeArr src.ids (stats.map (fun st => st.id)),
                  xstats_count := stats.length }
                (apply_filter src, true, true)
  else (src, false, true)

/-- The per-source trace of one sampling pass: whether `xstats_names_get` and
`xstats_get` were invoked, whether the sink fan-out was reached, and the sink
calls made. -/
structure SourceTrace where
  namesQueried : Bool
  getCalled : Bool
  fanout : Bool
  calls : List SinkCall
deriving DecidableEq, Repr

/-- The sink fan-out loop of `rte_sampler_sample` (rte_sampler.c:578-604),
started at sink index `j`.  `outRet j` is the return value of sink `j`'s
`output` callback; the C code inspects it only to `continue`, so both
branches of the final `if` proceed identically with the remaining sinks. -/
def fanOutFrom (src : Source) (outRet : Nat → Int) : Nat → List Sink → List SinkCall
  | _, [] => []
  | j, sink :: rest =>
    if sink.valid then
      let call : SinkCall :=
        { sinkIdx := j, src_name := src.name, source_id := src.source_id,
          names := if Nat.land sink.flags RTE_SAMPLER_SINK_F_NO_NAMES ≠ 0 then none
                   else some src.xstats_names,
          out_ids := src.filtered_ids, out_values := src.values,
          n := src.filtered_count }
      let ret := outRet j
      if ret < 0 then
        -- continue with other sinks on error
        call :: fanOutFrom src outRet (j + 1) rest
      else
        call :: fanOutFrom src outRet (j + 1) rest
    else fanOutFrom src outRet (j + 1) rest

/-- The call the engine makes to sink `sk` (at slot `j`) for source `src`,
as the spec describes it. -/
def mkCall (j : Nat) (sk : Sink) (src : Source) : SinkCall :=
  { sinkIdx := j, src_name := src.name, source_id := src.source_id,
    names := if Nat.land sk.flags RTE_SAMPLER_SINK_F_NO_NAMES ≠ 0 then none
             else some src.xstats_names,
    out_ids := src.filtered_ids, out_values := src.values,
    n := src.filtered_count }

/-- Specification-level fan-out, written from the spec's words: one call per
valid sink, in sink order, names suppressed exactly for `NO_NAMES` sinks. -/
def fanSpec (src : Source) : Nat → List Sink → List SinkCall
  | _, [] => []
  | j, sink :: rest =>
    if sink.valid then mkCall j sink src :: fanSpec src (j + 1) rest
    else fanSpec src (j + 1) rest

/-- One source's full sampling pass (rte_sampler.c:484-604): lazy name cache,
value fetch over the filtered ids, then sink fan-out.  The caller has already
checked `src.valid`. -/
def sampleSource (src : Source) (resp : AdapterResp) (sinks : List Sink)
    (numSinks : Nat) (outRet : Nat → Int) : Source × SourceTrace :=
  let c := cacheStats src resp
  let src1 := c.1
  if c.2.2 = false then
    (src1, { namesQueried := c.2.1, getCalled := false, fanout := false, calls := [] })
  else
    if src1.filtered_count > 0 then
      match resp.getRes with
      | AdapterRes.err _ =>
        (src1, { namesQueried := c.2.1, getCalled := true, fanout := false, calls := [] })
      | AdapterRes.ok vals =>
        let src2 : Source := { src1 with
          values := writeN src1.values vals src1.filtered_count }
        (src2, { namesQueried := c.2.1, getCalled := true, fanout := true,
                 calls := fanOutFrom src2 outRet 0 (sinks.take numSinks) })
    else
      (src1, { namesQueried := c.2.1, getCalled := false, fanout := true,
               calls := fanOutFrom src1 outRet 0 (sinks.take numSinks) })

/-- Shallow embedding of `struct rte_sampler_session` (rte_sampler.c:57-71).
The source/sink lists have length equal to the C array capacities; slots past
the registration high-water mark (`num_sources` / `num_sinks`) or freed by an
unregister carry `valid = false`. -/
structure Session where
  name : List Char
  sample_interval_ms : Nat
  duration_ms : Nat
  start_time : Nat
  last_sample_time : Nat
  active : Bool
  valid : Bool
  sources : List Source
  sinks : List Sink
  num_sources : Nat
  num_sinks : Nat
deriving DecidableEq, Repr

/-- The `for (i = 0; i < session->num_sources; i++)` loop of
`rte_sampler_sample` (rte_sampler.c:478-605): each valid source in slot order
is sampled; invalid slots are skipped (`continue`).  Returns the updated
source array and the traces of the sampled sources, tagged with their slot. -/
def sampleSources (sinks : List Sink) (numSinks : Nat) (adapters : Nat → AdapterResp)
    (outRet : Nat → Nat → Int) : List Source → Nat → Nat → List Source × List (Nat × SourceTrace)
  | [], _, _ => ([], [])
  | src :: rest, i, num =>
    if i < num then
      if src.valid then
        let r := sampleSource src (adapters i) sinks numSinks (outRet i)
        let t := sampleSources sinks numSinks adapters outRet rest (i + 1) num
        (r.1 :: t.1, (i, r.2) :: t.2)
      else
        let t := sampleSources sinks numSinks adapters outRet rest (i + 1) num
        (src :: t.1, t.2)
    else (src :: rest, [])

/-- Shallow embedding of `rte_sampler_sample` (rte_sampler.c:467-611).
`sess = none` models a NULL session pointer; `now` is the value of
`rte_get_timer_cycles()` at the end of the pass.  Besides the C return value
and the updated session, the trace of all per-source activity is returned. -/
def rte_sampler_sample (sess : Option Session) (adapters : Nat → AdapterResp)
    (outRet : Nat → Nat → Int) (now : Nat) :
    Int × Option Session × List (Nat × SourceTrace) :=
  match sess with
  | none => (-EINVAL, none, [])
  | some s =>
    if s.valid = false then (-EINVAL, some s, [])
    else
      let r := sampleSources s.sinks s.num_sinks adapters outRet s.sources 0 s.num_sources
      (0, some { s with sources := r.1, last_sample_time := now }, r.2)


/-! ## C6 and C10: sink fan-out -/

theorem fanOutFrom_eq_fanSpec (src : Source) (outRet : Nat → Int) :
    ∀ (sinks : List Sink) (j : Nat), fanOutFrom src outRet j sinks = fanSpec src j sinks := by
  intro sinks
  induction sinks with
  | nil => intro j; simp [fanOutFrom, fanSpec]
  | cons sink rest ih =>
    intro j
    by_cases hv : sink.valid
    · by_cases hr : outRet j < 0 <;>
        simp [fanOutFrom, fanSpec, mkCall, hv, hr, ih]
    · simp [fanOutFrom, fanSpec, hv, ih]

theorem fanSpec_length (src : Source) :
    ∀ (sinks : List Sink) (j : Nat),
      (fanSpec src j sinks).length = (sinks.filter (fun sk => sk.valid)).length := by
  intro sinks
  induction sinks with
  | nil => intro j; simp [fanSpec]
  | cons sink rest ih =>
    intro j
    by_cases hv : sink.valid <;> simp [fanSpec, hv, ih]

theorem fanSpec_payload (src : Source) :
    ∀ (sinks : List Sink) (j : Nat) (c : SinkCall), c ∈ fanSpec src j sinks →
      c.src_name = src.name ∧ c.source_id = src.source_id ∧
      c.out_ids = src.filtered_ids ∧ c.out_values = src.values ∧
      c.n = src.filtered_count := by
  intro sinks
  induction sinks with
  | nil => intro j c hc; simp [fanSpec] at hc
  | cons sink rest ih =>
    intro j c hc
    by_cases hv : sink.valid
    · simp only [fanSpec, if_pos hv, List.mem_cons] at hc
      rcases hc with hc | hc
      · subst hc
        exact ⟨rfl, rfl, rfl, rfl, rfl⟩
      · exact ih (j + 1) c hc
    · simp only [fanSpec, if_neg hv] at hc
      exact ih (j + 1) c hc

theorem fanSpec_mem_of_get (src : Source) :
    ∀ (sinks : List Sink) (j k : Nat) (sk : Sink),
      sinks.get? k = some sk → sk.valid = true →
      mkCall (j + k) sk src ∈ fanSpec src j sinks := by
  intro sinks
  induction sinks with
  | nil => intro j k sk hget; simp at hget
  | cons sink rest ih =>
    intro j k sk hget hv
    cases k with
    | zero =>
      simp only [List.get?] at hget
      injection hget with hget
      subst hget
      simp [fanSpec, hv]
    | succ k =>
      simp only [List.get?] at hget
      have := ih (j + 1) k sk hget hv
      rw [show j + (k + 1) = (j + 1) + k from by omega]
      by_cases hv2 : sink.valid
      · simp only [fanSpec, if_pos hv2]
        exact List.mem_cons_of_mem _ this
      · simp only [fanSpec, if_neg hv2]
        exact this

/-- C6: during one sampling pass, for a source that reaches fan-out every
valid sink's output callback is invoked exactly once, with `names = NULL`
iff the sink has `RTE_SAMPLER_SINK_F_NO_NAMES`, and with the same source
name, source id, filtered ids, values and filtered count for every sink; the
sink return values (`outRet`) have no influence on the calls made, so one
sink's error does not prevent the remaining sinks from being invoked. -/
theorem fanout_spec :
    ∀ (src : Source) (outRet outRet2 : Nat → Int) (j : Nat) (sinks : List Sink),
      fanOutFrom src outRet j sinks = fanOutFrom src outRet2 j sinks
      ∧ fanOutFrom src outRet j sinks = fanSpec src j sinks
      ∧ (fanSpec src j sinks).length = (sinks.filter (fun sk => sk.valid)).length
      ∧ (∀ c, c ∈ fanSpec src j sinks →
          c.src_name = src.name ∧ c.source_id = src.source_id ∧
          c.out_ids = src.filtered_ids ∧ c.out_values = src.values ∧
          c.n = src.filtered_count)
      ∧ (∀ k sk, sinks.get? k = some sk → sk.valid = true →
          mkCall (j + k) sk src ∈ fanSpec src j sinks
          ∧ ((mkCall (j + k) sk src).names = none ↔
              Nat.land sk.flags RTE_SAMPLER_SINK_F_NO_NAMES ≠ 0)) := by
  intro src outRet outRet2 j sinks
  refine ⟨?_, fanOutFrom_eq_fanSpec src outRet sinks j, fanSpec_length src sinks j,
    fanSpec_payload src sinks j, ?_⟩
  · rw [fanOutFrom_eq_fanSpec, fanOutFrom_eq_fanSpec]
  · intro k sk hget hv
    refine ⟨fanSpec_mem_of_get src sinks j k sk hget hv, ?_⟩
    by_cases hf : Nat.land sk.flags RTE_SAMPLER_SINK_F_NO_NAMES ≠ 0 <;>
      simp [mkCall, hf]

theorem fanout_spec_witness :
    ([defaultSink].get? 0 = some defaultSink ∧ defaultSink.valid = true → False)
    ∧ (fanOutFrom { defaultSource with valid := true } (fun _ => (-1 : Int)) 0
        [{ defaultSink with valid := true }]
      = fanSpec { defaultSource with valid := true } 0
        [{ defaultSink with valid := true }]) := by
  constructor
  · intro h
    exact absurd h.2 (by decide)
  · exact (fanout_spec { defaultSource with valid := true } (fun _ => (-1 : Int))
      (fun _ => 0) 0 [{ defaultSink with valid := true }]).2.1

/-- C10: for a valid source whose cache is populated but whose filtered count
is zero, the sampling pass skips the `xstats_get` value fetch yet still
reaches the sink fan-out, invoking every valid sink with count `n = 0`. -/
theorem empty_filter_fanout_spec :
    ∀ (src : Source) (resp : AdapterResp) (sinks : List Sink) (numSinks : Nat)
      (outRet : Nat → Int),
      src.xstats_count ≠ 0 → src.filtered_count = 0 →
      (sampleSource src resp sinks numSinks outRet).1 = src
      ∧ (sampleSource src resp sinks numSinks outRet).2.getCalled = false
      ∧ (sampleSource src resp sinks numSinks outRet).2.fanout = true
      ∧ (sampleSource src resp sinks numSinks outRet).2.calls
          = fanSpec src 0 (sinks.take numSinks)
      ∧ (∀ c, c ∈ (sampleSource src resp sinks numSinks outRet).2.calls → c.n = 0) := by
  intro src resp sinks numSinks outRet hcount hfc
  have hred : sampleSource src resp sinks numSinks outRet
      = (src, { namesQueried := false, getCalled := false, fanout := true,
                calls := fanOutFrom src outRet 0 (sinks.take numSinks) }) := by
    simp [sampleSource, cacheStats, hcount, hfc]
  rw [hred]
  refine ⟨rfl, rfl, rfl, ?_, ?_⟩
  · exact fanOutFrom_eq_fanSpec src outRet (sinks.take numSinks) 0
  · intro c hc
    simp only at hc
    rw [fanOutFrom_eq_fanSpec] at hc
    have := (fanSpec_payload src (sinks.take numSinks) 0 c hc).2.2.2.2
    rw [this, hfc]

theorem empty_filter_fanout_spec_witness :
    ({ defaultSource with
        valid := true,
        xstats_count := 2,
        xstats_names := [['a'], ['b']],
        ids := [1, 2],
        values := [0, 0],
        xstats_capacity := 2,
        filtered_ids := [0, 0],
        filtered_count := 0,
        filter_active := true,
        num_filter_patterns := 1,
        filter_patterns := [some ['z']],
        filter_patterns_capacity := 1 } : Source).xstats_count ≠ 0
    ∧ (sampleSource
        { defaultSource with
            valid := true,
            xstats_count := 2,
            xstats_names := [['a'], ['b']],
            ids := [1, 2],
            values := [0, 0],
            xstats_capacity := 2,
            filtered_ids := [0, 0],
            filtered_count := 0,
            filter_active := true,
            num_filter_patterns := 1,
            filter_patterns := [some ['z']],
            filter_patterns_capacity := 1 }
        { sizeRet := 2,
          allocNamesOk := true,
          allocIdsOk := true,
          allocValuesOk := true,
          allocFilteredOk := true,
          fillRes := AdapterRes.ok [],
          getRes := AdapterRes.err (-1) }
        [{ defaultSink with valid := true }] 1 (fun _ => 0)).2.getCalled = false := by
  constructor
  · decide
  · exact (empty_filter_fanout_spec _ _ [{ defaultSink with valid := true }] 1
      (fun _ => 0) (by decide) (by decide)).2.1


/-! ## C2: xstats_reset (rte_sampler.c:754-811) -/

/-- The `memset(values, 0, xstats_capacity * sizeof(uint64_t))` step of
`rte_sampler_xstats_reset`, guarded by `values != NULL && xstats_capacity > 0`
(rte_sampler.c:783-784, 806-807). -/
def zeroValues (src : Source) : Source :=
  if src.values ≠ [] ∧ src.xstats_capacity > 0 then
    { src with values := src.values.map (fun _ => 0) }
  else src

/-- The all-sources loop of `rte_sampler_xstats_reset` (rte_sampler.c:790-808),
walking slots `0 ≤ i < num`: for each valid source the adapter's
`xstats_reset` is called when provided (its return value is ignored —
"Continue with other sources on error") and the cached values are zeroed
unconditionally. -/
def resetAll : List Source → Nat → Nat → List Source
  | [], _, _ => []
  | src :: rest, i, num =>
    if i < num then
      (if src.valid then zeroValues src else src) :: resetAll rest (i + 1) num
    else src :: rest

/-- Shallow embedding of `rte_sampler_xstats_reset` (rte_sampler.c:754-811).
`srcIdx = some i` models a non-NULL `source` argument pointing at slot `i`
of this session (`none` at the `get?` level models a pointer that fails the
`source->session != session` check); `resetRet i` is the return value of
slot `i`'s adapter `xstats_reset` callback.  The `ids`/`n` arguments are
passed through to the adapter verbatim and do not affect the runtime state,
so they are not modelled. -/
def rte_sampler_xstats_reset (sess : Option Session) (srcIdx : Option Nat)
    (resetRet : Nat → Int) : Int × Option Session :=
  match sess with
  | none => (-EINVAL, none)
  | some s =>
    if s.valid = false then (-EINVAL, some s)
    else
      match srcIdx with
      | some i =>
        match s.sources.get? i with
        | none => (-EINVAL, some s)
        | some src =>
          if src.valid = false then (-EINVAL, some s)
          else
            if src.has_reset ∧ resetRet i < 0 then (resetRet i, some s)
            else (0, some { s with sources := s.sources.set i (zeroValues src) })
      | none => (0, some { s with sources := resetAll s.sources 0 s.num_sources })

theorem resetAll_get (l : List Source) :
    ∀ (j num i : Nat),
      (resetAll l j num).get? i =
        (l.get? i).map (fun src =>
          if j + i < num ∧ src.valid = true then zeroValues src else src) := by
  induction l with
  | nil => intro j num i; simp [resetAll]
  | cons src rest ih =>
    intro j num i
    by_cases hj : j < num
    · simp only [resetAll, if_pos hj]
      cases i with
      | zero =>
        simp only [List.get?, Option.map]
        by_cases hv : src.valid = true
        · simp [hv, hj]
        · simp [hv]
      | succ i =>
        simp only [List.get?]
        rw [ih (j + 1) num i]
        rw [show j + 1 + i = j + (i + 1) from by omega]
    · simp only [resetAll, if_neg hj]
      cases hg : (src :: rest).get? i with
      | none => simp [hg]
      | some x =>
        simp only [hg, Option.map]
        rw [if_neg]
        intro hcon
        omega

/-- C2 counterexample: with one valid source whose adapter `xstats_reset`
returns `-5`, the all-sources reset still zeroes that source's cached
values (and returns 0), although the claim says values are zeroed only when
that source's reset succeeded.  The specific-source call with the same oracle
returns `-5` and leaves the values untouched. -/
theorem xstats_reset_all_counterexample :
    (rte_sampler_xstats_reset
        (some { name := [], sample_interval_ms := 0, duration_ms := 0,
                start_time := 0, last_sample_time := 0, active := false,
                valid := true,
                sources := [{ defaultSource with
                                valid := true, has_reset := true,
                                values := [7], xstats_capacity := 1 }],
                sinks := [], num_sources := 1, num_sinks := 0 })
        none (fun _ => -5)).1 = 0
    ∧ ((rte_sampler_xstats_reset
        (some { name := [], sample_interval_ms := 0, duration_ms := 0,
                start_time := 0, last_sample_time := 0, active := false,
                valid := true,
                sources := [{ defaultSource with
                                valid := true, has_reset := true,
                                values := [7], xstats_capacity := 1 }],
                sinks := [], num_sources := 1, num_sinks := 0 })
        none (fun _ => -5)).2.map (fun s2 => s2.sources.map (fun src => src.values)))
      = some [[0]]
    ∧ (rte_sampler_xstats_reset
        (some { name := [], sample_interval_ms := 0, duration_ms := 0,
                start_time := 0, last_sample_time := 0, active := false,
                valid := true,
                sources := [{ defaultSource with
                                valid := true, has_reset := true,
                                values := [7], xstats_capacity := 1 }],
                sinks := [], num_sources := 1, num_sinks := 0 })
        (some 0) (fun _ => -5)).1 = -5 := by
  refine ⟨by decide, by decide, by decide⟩

/-- C2 (amended): for a specific source, `rte_sampler_xstats_reset` calls the
adapter's reset when provided and propagates a negative return without
touching the cached values; on success (or when no reset op is provided) it
zeroes the cached values and returns 0.  For the all-sources call the result
is independent of the adapters' return values: the call returns 0 and every
valid source in range has its cached values zeroed unconditionally, so one
source's failure does not prevent the others from being processed — but the
values are zeroed even for a source whose reset failed. -/
theorem xstats_reset_spec :
    ∀ (s : Session) (resetRet : Nat → Int),
      s.valid = true →
      (∀ i src, s.sources.get? i = some src → src.valid = true →
        (src.has_reset = true → resetRet i < 0 →
          rte_sampler_xstats_reset (some s) (some i) resetRet = (resetRet i, some s))
        ∧ (src.has_reset = false ∨ 0 ≤ resetRet i →
          rte_sampler_xstats_reset (some s) (some i) resetRet
            = (0, some { s with sources := s.sources.set i (zeroValues src) })))
      ∧ (∀ resetRet2, rte_sampler_xstats_reset (some s) none resetRet
          = rte_sampler_xstats_reset (some s) none resetRet2)
      ∧ (rte_sampler_xstats_reset (some s) none resetRet).1 = 0
      ∧ (∀ i src, s.sources.get? i = some src → i < s.num_sources →
          ∃ s2, (rte_sampler_xstats_reset (some s) none resetRet).2 = some s2
            ∧ s2.sources.get? i
              = some (if src.valid = true then zeroValues src else src)) := by
  intro s resetRet hv
  refine ⟨?_, ?_, ?_, ?_⟩
  · intro i src hget hsv
    have hget2 : s.sources[i]? = some src := by
      rw [← List.get?_eq_getElem?]
      exact hget
    constructor
    · intro hr hneg
      simp [rte_sampler_xstats_reset, hv, hget2, hsv, hr, hneg]
    · intro hok
      rcases hok with hok | hok
      · simp [rte_sampler_xstats_reset, hv, hget2, hsv, hok]
      · have : ¬(src.has_reset = true ∧ resetRet i < 0) := by
          intro hcon
          omega
        simp [rte_sampler_xstats_reset, hv, hget2, hsv, this]
  · intro resetRet2
    simp [rte_sampler_xstats_reset, hv]
  · simp [rte_sampler_xstats_reset, hv]
  · intro i src hget hlt
    refine ⟨{ s with sources := resetAll s.sources 0 s.num_sources }, ?_, ?_⟩
    · simp [rte_sampler_xstats_reset, hv]
    · simp only [resetAll_get s.sources 0 s.num_sources i, hget, Option.map]
      by_cases hsv : src.valid = true
      · rw [if_pos ⟨by omega, hsv⟩, if_pos hsv]
      · rw [if_neg (by simp [hsv]), if_neg hsv]

theorem xstats_reset_spec_witness :
    ({ name := [], sample_interval_ms := 0, duration_ms := 0,
       start_time := 0, last_sample_time := 0, active := false,
       valid := true,
       sources := [{ defaultSource with
                       valid := true, has_reset := true,
                       values := [7], xstats_capacity := 1 }],
       sinks := [], num_sources := 1, num_sinks := 0 } : Session).valid = true
    ∧ (rte_sampler_xstats_reset
        (some { name := [], sample_interval_ms := 0, duration_ms := 0,
                start_time := 0, last_sample_time := 0, active := false,
                valid := true,
                sources := [{ defaultSource with
                                valid := true, has_reset := true,
                                values := [7], xstats_capacity := 1 }],
                sinks := [], num_sources := 1, num_sinks := 0 })
        (some 0) (fun _ => -5)).1 = -5 := by
  constructor
  · decide
  · have h := (xstats_reset_spec
      { name := [], sample_interval_ms := 0, duration_ms := 0,
        start_time := 0, last_sample_time := 0, active := false,
        valid := true,
        sources := [{ defaultSource with
                        valid := true, has_reset := true,
                        values := [7], xstats_capacity := 1 }],
        sinks := [], num_sources := 1, num_sinks := 0 }
      (fun _ => -5) rfl).1 0
      { defaultSource with
          valid := true, has_reset := true, values := [7], xstats_capacity := 1 }
      rfl rfl
    rw [(h.1 rfl (by decide))]


/-! ## C5 and C7: cache freezing and the sample return value -/

theorem apply_filter_cache (s : Source) :
    (apply_filter s).xstats_count = s.xstats_count
    ∧ (apply_filter s).xstats_names = s.xstats_names
    ∧ (apply_filter s).ids = s.ids
    ∧ (apply_filter s).valid = s.valid
    ∧ (apply_filter s).values = s.values := by
  by_cases h : s.filter_active = false <;> simp [apply_filter, h]

theorem clear_filter_cache (src : Source) :
    (rte_sampler_source_clear_filter src).2.xstats_count = src.xstats_count
    ∧ (rte_sampler_source_clear_filter src).2.xstats_names = src.xstats_names
    ∧ (rte_sampler_source_clear_filter src).2.ids = src.ids := by
  by_cases h : src.valid = false <;> simp [rte_sampler_source_clear_filter, h]

theorem copyPatterns_cache (copyOk : Nat → Bool) :
    ∀ (ps : List (List Char)) (src : Source) (i : Nat),
      (copyPatterns copyOk src ps i).2.xstats_count = src.xstats_count
      ∧ (copyPatterns copyOk src ps i).2.xstats_names = src.xstats_names
      ∧ (copyPatterns copyOk src ps i).2.ids = src.ids := by
  intro ps
  induction ps with
  | nil => intro src i; simp [copyPatterns]
  | cons p rest ih =>
    intro src i
    by_cases hc : copyOk i
    · simp only [copyPatterns, if_pos hc]
      exact ih _ (i + 1)
    · simp only [copyPatterns, if_neg hc]
      exact clear_filter_cache src

theorem set_filter_cache (src : Source) (patterns : Option (List (List Char)))
    (growOk : Bool) (copyOk : Nat → Bool) :
    (rte_sampler_source_set_filter src patterns growOk copyOk).2.xstats_count = src.xstats_count
    ∧ (rte_sampler_source_set_filter src patterns growOk copyOk).2.xstats_names = src.xstats_names
    ∧ (rte_sampler_source_set_filter src patterns growOk copyOk).2.ids = src.ids := by
  by_cases hv : src.valid = false
  · simp [rte_sampler_source_set_filter, hv]
  · cases patterns with
    | none => simp [rte_sampler_source_set_filter, hv]
    | some ps =>
      by_cases hlen : ps.length = 0
      · simp [rte_sampler_source_set_filter, hv, hlen]
      · rw [show rte_sampler_source_set_filter src (some ps) growOk copyOk
              = setFilterBody src ps growOk copyOk from by
            simp [rte_sampler_source_set_filter, hv, hlen]]
        simp only [setFilterBody]
        cases hg : setFilterGrow
            { src with filter_patterns := clearUpto src.filter_patterns src.num_filter_patterns }
            ps.length growOk with
        | none => simp
        | some src2 =>
          simp only []
          have hsrc2 : src2.xstats_count = src.xstats_count
              ∧ src2.xstats_names = src.xstats_names ∧ src2.ids = src.ids := by
            simp only [setFilterGrow] at hg
            split at hg
            · split at hg
              · injection hg with hg
                rw [← hg]
                exact ⟨rfl, rfl, rfl⟩
              · exact absurd hg (by simp)
            · injection hg with hg
              rw [← hg]
              exact ⟨rfl, rfl, rfl⟩
          have hcp := copyPatterns_cache copyOk ps { src2 with num_filter_patterns := 0 } 0
          by_cases hneg : (copyPatterns copyOk { src2 with num_filter_patterns := 0 } ps 0).1 < 0
          · rw [if_pos hneg]
            rw [hcp.1, hcp.2.1, hcp.2.2]
            exact ⟨hsrc2.1, hsrc2.2.1, hsrc2.2.2⟩
          · rw [if_neg hneg]
            simp only [finishSetFilter]
            have hfin := apply_filter_cache
              { (copyPatterns copyOk { src2 with num_filter_patterns := 0 } ps 0).2 with
                  filter_active := true }
            by_cases hcnt : ({ (copyPatterns copyOk { src2 with num_filter_patterns := 0 } ps 0).2 with
                  filter_active := true } : Source).xstats_count > 0
            · rw [if_pos hcnt]
              simp only []
              rw [hfin.1, hfin.2.1, hfin.2.2.1]
              simp only []
              rw [hcp.1, hcp.2.1, hcp.2.2]
              exact ⟨hsrc2.1, hsrc2.2.1, hsrc2.2.2⟩
            · rw [if_neg hcnt]
              simp only []
              rw [hcp.1, hcp.2.1, hcp.2.2]
              exact ⟨hsrc2.1, hsrc2.2.1, hsrc2.2.2⟩

theorem sampleSource_cache_frozen (src : Source) (resp : AdapterResp)
    (sinks : List Sink) (numSinks : Nat) (outRet : Nat → Int)
    (hcount : src.xstats_count ≠ 0) :
    (sampleSource src resp sinks numSinks outRet).2.namesQueried = false
    ∧ (sampleSource src resp sinks numSinks outRet).1.xstats_count = src.xstats_count
    ∧ (sampleSource src resp sinks numSinks outRet).1.xstats_names = src.xstats_names
    ∧ (sampleSource src resp sinks numSinks outRet).1.ids = src.ids := by
  have hred : cacheStats src resp = (src, false, true) := by
    simp [cacheStats, hcount]
  by_cases hfc : src.filtered_count > 0
  · cases hget : resp.getRes with
    | err e => simp [sampleSource, hred, hfc, hget]
    | ok vals => simp [sampleSource, hred, hfc, hget]
  · simp [sampleSource, hred, hfc]

/-- C5: once a source's name cache is populated (`xstats_count > 0`), a
sampling pass never invokes `xstats_names_get` again — whatever the adapter
would now report — and none of the modelled operations (sampling, set/clear
filter, xstats reset) changes `xstats_count`, the cached names or the cached
ids; only re-registration (which memsets the record) produces a new cache. -/
theorem cache_freeze_spec :
    (∀ (src : Source) (resp : AdapterResp) (sinks : List Sink) (numSinks : Nat)
        (outRet : Nat → Int),
        src.xstats_count ≠ 0 →
        (sampleSource src resp sinks numSinks outRet).2.namesQueried = false
        ∧ (sampleSource src resp sinks numSinks outRet).1.xstats_count = src.xstats_count
        ∧ (sampleSource src resp sinks numSinks outRet).1.xstats_names = src.xstats_names
        ∧ (sampleSource src resp sinks numSinks outRet).1.ids = src.ids)
    ∧ (∀ (src : Source) (patterns : Option (List (List Char))) (growOk : Bool)
        (copyOk : Nat → Bool),
        (rte_sampler_source_set_filter src patterns growOk copyOk).2.xstats_count
            = src.xstats_count
        ∧ (rte_sampler_source_set_filter src patterns growOk copyOk).2.xstats_names
            = src.xstats_names
        ∧ (rte_sampler_source_set_filter src patterns growOk copyOk).2.ids = src.ids)
    ∧ (∀ src : Source,
        (rte_sampler_source_clear_filter src).2.xstats_count = src.xstats_count
        ∧ (rte_sampler_source_clear_filter src).2.xstats_names = src.xstats_names
        ∧ (rte_sampler_source_clear_filter src).2.ids = src.ids)
    ∧ (∀ src : Source,
        (zeroValues src).xstats_count = src.xstats_count
        ∧ (zeroValues src).xstats_names = src.xstats_names
        ∧ (zeroValues src).ids = src.ids) := by
  refine ⟨sampleSource_cache_frozen, set_filter_cache, clear_filter_cache, ?_⟩
  intro src
  by_cases h : src.values ≠ [] ∧ src.xstats_capacity > 0 <;> simp [zeroValues, h]

theorem cache_freeze_spec_witness :
    ({ defaultSource with
        valid := true,
        xstats_count := 1,
        xstats_names := [['a']],
        ids := [3],
        values := [7],
        xstats_capacity := 1,
        filtered_ids := [3],
        filtered_count := 1 } : Source).xstats_count ≠ 0
    ∧ (sampleSource
        { defaultSource with
            valid := true,
            xstats_count := 1,
            xstats_names := [['a']],
            ids := [3],
            values := [7],
            xstats_capacity := 1,
            filtered_ids := [3],
            filtered_count := 1 }
        { sizeRet := 5,
          allocNamesOk := true,
          allocIdsOk := true,
          allocValuesOk := true,
          allocFilteredOk := true,
          fillRes := AdapterRes.ok [⟨['x'], 9⟩, ⟨['y'], 10⟩],
          getRes := AdapterRes.ok [42] }
        [] 0 (fun _ => 0)).2.namesQueried = false := by
  constructor
  · decide
  · exact (cache_freeze_spec.1 _ _ [] 0 (fun _ => 0) (by decide)).1

/-- C7: `rte_sampler_sample(session)` returns `-EINVAL` exactly when the
session is NULL or invalid; in every other case it returns 0 and
unconditionally sets the session's `last_sample_time` to the current cycle
counter, regardless of what the adapters and sinks did during the pass. -/
theorem sample_return_spec :
    ∀ (sess : Option Session) (adapters : Nat → AdapterResp)
      (outRet : Nat → Nat → Int) (now : Nat),
      ((rte_sampler_sample sess adapters outRet now).1 = -EINVAL ↔
        ∀ s, sess = some s → s.valid = false)
      ∧ (∀ s, sess = some s → s.valid = true →
          (rte_sampler_sample sess adapters outRet now).1 = 0
          ∧ ∃ s2, (rte_sampler_sample sess adapters outRet now).2.1 = some s2
              ∧ s2.last_sample_time = now) := by
  intro sess adapters outRet now
  cases sess with
  | none =>
    constructor
    · constructor
      · intro _ s heq
        exact absurd heq (by simp)
      · intro _
        simp [rte_sampler_sample]
    · intro s heq
      exact absurd heq (by simp)
  | some s =>
    by_cases hv : s.valid = true
    · constructor
      · constructor
        · intro h
          rw [show (rte_sampler_sample (some s) adapters outRet now).1 = 0 from by
              simp [rte_sampler_sample, hv]] at h
          exact absurd h (by norm_num [EINVAL])
        · intro h
          have := h s rfl
          rw [hv] at this
          exact absurd this (by simp)
      · intro s2 heq hv2
        injection heq with heq
        subst heq
        refine ⟨by simp [rte_sampler_sample, hv], ?_⟩
        refine ⟨{ s with
            sources := (sampleSources s.sinks s.num_sinks adapters outRet
              s.sources 0 s.num_sources).1,
            last_sample_time := now }, ?_, rfl⟩
        simp [rte_sampler_sample, hv]
    · have hv2 : s.valid = false := by
        cases hvv : s.valid
        · rfl
        · exact absurd hvv hv
      constructor
      · constructor
        · intro _ s2 heq
          injection heq with heq
          subst heq
          exact hv2
        · intro _
          simp [rte_sampler_sample, hv2]
      · intro s2 heq hvt
        injection heq with heq
        subst heq
        exact absurd hvt hv

theorem sample_return_spec_witness :
    some ({ name := [], sample_interval_ms := 0, duration_ms := 0,
            start_time := 0, last_sample_time := 0, active := true,
            valid := true,
            sources := [{ defaultSource with valid := true }],
            sinks := [{ defaultSink with valid := true }],
            num_sources := 1, num_sinks := 1 } : Session)
      = some { name := [], sample_interval_ms := 0, duration_ms := 0,
               start_time := 0, last_sample_time := 0, active := true,
               valid := true,
               sources := [{ defaultSource with valid := true }],
               sinks := [{ defaultSink with valid := true }],
               num_sources := 1, num_sinks := 1 }
    ∧ (rte_sampler_sample
        (some { name := [], sample_interval_ms := 0, duration_ms := 0,
                start_time := 0, last_sample_time := 0, active := true,
                valid := true,
                sources := [{ defaultSource with valid := true }],
                sinks := [{ defaultSink with valid := true }],
                num_sources := 1, num_sinks := 1 })
        (fun _ => { sizeRet := -1, allocNamesOk := true, allocIdsOk := true,
                    allocValuesOk := true, allocFilteredOk := true,
                    fillRes := AdapterRes.err (-1), getRes := AdapterRes.err (-1) })
        (fun _ _ => -1) 77).1 = 0 := by
  refine ⟨rfl, ?_⟩
  exact ((sample_return_spec _
    (fun _ => { sizeRet := -1, allocNamesOk := true, allocIdsOk := true,
                allocValuesOk := true, allocFilteredOk := true,
                fillRes := AdapterRes.err (-1), getRes := AdapterRes.err (-1) })
    (fun _ _ => -1) 77).2 _ rfl rfl).1


/-! ## C4: list groundwork for the filtered-ids invariant -/

theorem take_len_append {α : Type} (A B : List α) : (A ++ B).take A.length = A := by
  induction A with
  | nil => simp
  | cons a A ih => simp [ih]

theorem drop_len_append {α : Type} (A B : List α) : (A ++ B).drop A.length = B := by
  induction A with
  | nil => simp
  | cons a A ih => simp [ih]

theorem writeArr_eq {α : Type} (dst new : List α) (h : new.length ≤ dst.length) :
    writeArr dst new = new ++ dst.drop new.length := by
  unfold writeArr
  rw [List.take_of_length_le h, Nat.min_eq_left h]

theorem writeArr_take_pre {α : Type} (dst new : List α) (h : new.length ≤ dst.length) :
    (writeArr dst new).take new.length = new := by
  rw [writeArr_eq dst new h, take_len_append]

theorem take_append_of_len {α : Type} (A B : List α) (count : Nat) (h : A.length = count) :
    (A ++ B).take count = A := by
  subst h
  exact take_len_append A B

theorem writeArr_take_len {α : Type} (dst new : List α) (count : Nat)
    (hlen : new.length = count) (h : new.length ≤ dst.length) :
    (writeArr dst new).take count = new := by
  rw [writeArr_eq dst new h]
  exact take_append_of_len new _ count hlen

/-- Write the pattern strings `ps` into consecutive slots starting at `i`:
the cumulative effect of the successful iterations of the copy loop. -/
def setSome : List (Option (List Char)) → Nat → List (List Char) → List (Option (List Char))
  | l, _, [] => l
  | l, i, p :: rest => setSome (l.set i (some p)) (i + 1) rest

theorem copyPatterns_ok (copyOk : Nat → Bool) :
    ∀ (ps : List (List Char)) (src : Source) (i : Nat),
      (∀ k, k < ps.length → copyOk (i + k) = true) →
      copyPatterns copyOk src ps i
        = (0, { src with filter_patterns := setSome src.filter_patterns i ps,
                         num_filter_patterns := src.num_filter_patterns + ps.length }) := by
  intro ps
  induction ps with
  | nil =>
    intro src i _
    simp [copyPatterns, setSome]
  | cons p rest ih =>
    intro src i hok
    have h0 : copyOk i = true := by simpa using hok 0 (Nat.succ_pos _)
    rw [show copyPatterns copyOk src (p :: rest) i
          = copyPatterns copyOk
              { src with filter_patterns := src.filter_patterns.set i (some p),
                         num_filter_patterns := src.num_filter_patterns + 1 }
              rest (i + 1) from by
        simp [copyPatterns, h0]]
    rw [ih _ (i + 1) (fun k hk => by
      have := hok (k + 1) (by simpa using Nat.succ_lt_succ hk)
      rw [show i + 1 + k = i + (k + 1) from by omega]
      exact this)]
    rw [show src.num_filter_patterns + 1 + rest.length
          = src.num_filter_patterns + (rest.length + 1) from by omega]
    rfl

theorem setSome_eq :
    ∀ (ps : List (List Char)) (l : List (Option (List Char))) (i : Nat),
      i + ps.length ≤ l.length →
      setSome l i ps = l.take i ++ ps.map some ++ l.drop (i + ps.length) := by
  intro ps
  induction ps with
  | nil =>
    intro l i h
    simp [setSome]
  | cons p rest ih =>
    intro l i h
    have hi : i < l.length := by simp at h; omega
    rw [show setSome l i (p :: rest) = setSome (l.set i (some p)) (i + 1) rest from rfl]
    rw [ih (l.set i (some p)) (i + 1) (by simp at h ⊢; omega)]
    rw [List.set_eq_take_cons_drop (some p) hi]
    have hlen : (l.take i).length = i := List.length_take_of_le (Nat.le_of_lt hi)
    have htake : (l.take i ++ some p :: l.drop (i + 1)).take (i + 1)
        = l.take i ++ [some p] := by
      rw [List.take_append_eq_append_take, hlen]
      rw [List.take_of_length_le (by omega)]
      rw [show i + 1 - i = 1 from by omega]
      rfl
    have hdrop : (l.take i ++ some p :: l.drop (i + 1)).drop (i + 1 + rest.length)
        = l.drop (i + (rest.length + 1)) := by
      rw [List.drop_append_eq_append_drop, hlen]
      rw [List.drop_of_length_le (by omega)]
      rw [show i + 1 + rest.length - i = rest.length + 1 from by omega]
      rw [show (some p :: l.drop (i + 1)).drop (rest.length + 1)
            = (l.drop (i + 1)).drop rest.length from rfl]
      rw [List.drop_drop]
      simp only [List.nil_append]
      rw [show i + 1 + rest.length = i + (rest.length + 1) from by omega]
    rw [htake, hdrop]
    simp [List.append_assoc]

theorem setSome_length :
    ∀ (ps : List (List Char)) (l : List (Option (List Char))) (i : Nat),
      (setSome l i ps).length = l.length := by
  intro ps
  induction ps with
  | nil => intro l i; simp [setSome]
  | cons p rest ih =>
    intro l i
    rw [show setSome l i (p :: rest) = setSome (l.set i (some p)) (i + 1) rest from rfl]
    rw [ih]
    simp

theorem setSome_take_all_isSome (ps : List (List Char))
    (l : List (Option (List Char))) (h : ps.length ≤ l.length) :
    ((setSome l 0 ps).take ps.length).all Option.isSome = true := by
  rw [setSome_eq ps l 0 (by omega)]
  simp only [List.take_nil, List.nil_append, List.take_zero]
  rw [List.take_append_eq_append_take]
  rw [List.take_of_length_le (by simp)]
  simp

theorem reduceOption_map_some_eq :
    ∀ (ps : List (List Char)), (ps.map some).reduceOption = ps := by
  intro ps
  induction ps with
  | nil => simp
  | cons p rest ih => simp [List.reduceOption_cons_of_some, ih]

theorem setSome_live (ps : List (List Char))
    (l : List (Option (List Char))) (h : ps.length ≤ l.length) :
    ((setSome l 0 ps).take ps.length).reduceOption = ps := by
  rw [setSome_eq ps l 0 (by omega)]
  simp only [List.take_zero, List.nil_append]
  rw [List.take_append_eq_append_take]
  rw [List.take_of_length_le (by simp)]
  simp only [List.length_map, Nat.sub_self, List.take_zero, List.append_nil]
  exact reduceOption_map_some_eq ps

theorem any_getD_eq_any_reduceOption (f : List Char → Bool) :
    ∀ (l : List (Option (List Char))),
      l.all Option.isSome = true →
      l.any (fun p => f (p.getD [])) = l.reduceOption.any f := by
  intro l
  induction l with
  | nil => intro _; simp
  | cons o rest ih =>
    intro h
    simp only [List.all_cons, Bool.and_eq_true] at h
    cases o with
    | none => simp at h
    | some a =>
      simp only [List.any_cons, List.reduceOption_cons_of_some, Option.getD_some]
      rw [ih h.2]

theorem filter_zip_snd_sublist (f : List Char × Nat → Bool) :
    ∀ (A : List (List Char)) (B : List Nat),
      ((((A.zip B).filter f).map (fun p => p.2))).Sublist B := by
  intro A
  induction A with
  | nil => intro B; simp
  | cons a A ih =>
    intro B
    cases B with
    | nil => simp
    | cons b B =>
      rw [show (a :: A).zip (b :: B) = (a, b) :: A.zip B from rfl]
      by_cases hf : f (a, b)
      · rw [show ((a, b) :: A.zip B).filter f = (a, b) :: (A.zip B).filter f from by
            simp [hf]]
        rw [List.map_cons]
        exact List.Sublist.cons₂ b (ih B)
      · rw [show ((a, b) :: A.zip B).filter f = (A.zip B).filter f from by
            simp [hf]]
        exact List.Sublist.cons b (ih B)

theorem map_snd_zip_self (A : List (List Char)) :
    ∀ (B : List Nat), A.length = B.length → (A.zip B).map (fun p => p.2) = B := by
  induction A with
  | nil =>
    intro B h
    cases B
    · simp
    · simp at h
  | cons a A ih =>
    intro B h
    cases B with
    | nil => simp at h
    | cons b B =>
      simp only [List.length_cons] at h
      rw [show (a :: A).zip (b :: B) = (a, b) :: A.zip B from rfl, List.map_cons]
      rw [ih B (by omega)]


/-! ## C4: the filtered-ids invariant and its preservation -/

theorem cachedPairs_length (s : Source)
    (hn : s.xstats_count ≤ s.xstats_names.length)
    (hi : s.xstats_count ≤ s.ids.length) :
    (cachedPairs s).length = s.xstats_count := by
  simp only [cachedPairs, List.length_zip, List.length_take]
  omega

theorem matchedIds_length_le (s : Source)
    (hn : s.xstats_count ≤ s.xstats_names.length)
    (hi : s.xstats_count ≤ s.ids.length) :
    (matchedIds s).length ≤ s.xstats_count := by
  have hz := cachedPairs_length s hn hi
  calc (matchedIds s).length
      ≤ (cachedPairs s).length := by
        simp only [matchedIds, List.length_map]
        exact List.length_filter_le _ _
    _ = s.xstats_count := hz

theorem apply_filter_inv (s : Source)
    (hn : s.xstats_count ≤ s.xstats_names.length)
    (hi : s.xstats_count ≤ s.ids.length)
    (hf : s.xstats_count ≤ s.filtered_ids.length) :
    (apply_filter s).filtered_count ≤ s.xstats_count
    ∧ (apply_filter s).filtered_ids.length = s.filtered_ids.length
    ∧ (s.filter_active = false →
        (apply_filter s).filtered_count = s.xstats_count
        ∧ filteredPart (apply_filter s) = idsPart (apply_filter s))
    ∧ (s.filter_active = true →
        filteredPart (apply_filter s) = matchedIds (apply_filter s)) := by
  by_cases ha : s.filter_active = false
  · rw [show apply_filter s
        = { s with filtered_count := s.xstats_count,
                   filtered_ids := writeArr s.filtered_ids (s.ids.take s.xstats_count) }
      from by simp [apply_filter, ha]]
    refine ⟨Nat.le_refl _, writeArr_length _ _, ?_, ?_⟩
    · intro _
      refine ⟨rfl, ?_⟩
      simp only [filteredPart, idsPart]
      exact writeArr_take_len s.filtered_ids (s.ids.take s.xstats_count) s.xstats_count
        (by simp only [List.length_take]; omega)
        (by simp only [List.length_take]; omega)
    · intro hcon
      rw [ha] at hcon
      exact absurd hcon (by simp)
  · have ha2 : s.filter_active = true := by
      cases hb : s.filter_active
      · exact absurd hb ha
      · rfl
    rw [show apply_filter s
        = { s with filtered_ids := writeArr s.filtered_ids (matchedIds s),
                   filtered_count := (matchedIds s).length }
      from by simp [apply_filter, ha2]]
    have hml := matchedIds_length_le s hn hi
    refine ⟨hml, writeArr_length _ _, ?_, ?_⟩
    · intro hcon
      rw [ha2] at hcon
      exact absurd hcon (by simp)
    · intro _
      simp only [filteredPart]
      have : matchedIds { s with
          filtered_ids := writeArr s.filtered_ids (matchedIds s),
          filtered_count := (matchedIds s).length } = matchedIds s := rfl
      rw [this]
      exact writeArr_take_pre s.filtered_ids (matchedIds s) (by omega)

/-- The inductive invariant tying together a source's pattern array, cached
arrays, and filtered projection. -/
def SourceInv (s : Source) : Prop :=
  s.filter_patterns.length = s.filter_patterns_capacity
  ∧ (s.xstats_count = 0 → s.filtered_count = 0)
  ∧ (s.xstats_count ≠ 0 →
      s.xstats_count ≤ s.xstats_capacity
      ∧ s.xstats_names.length = s.xstats_capacity
      ∧ s.ids.length = s.xstats_capacity
      ∧ s.filtered_ids.length = s.xstats_capacity)
  ∧ s.filtered_count ≤ s.xstats_count
  ∧ (s.filter_active = false →
      s.filtered_count = s.xstats_count ∧ filteredPart s = idsPart s)
  ∧ (s.filter_active = true →
      s.num_filter_patterns ≠ 0
      ∧ (s.filter_patterns.take s.num_filter_patterns).all Option.isSome = true
      ∧ filteredPart s = matchedIds s)

theorem inv_fresh (nm : List Char) (sid : Nat) (hr : Bool) :
    SourceInv (freshSource nm sid hr) := by
  refine ⟨rfl, fun _ => rfl, fun hc => absurd rfl hc, Nat.le_refl _, ?_, ?_⟩
  · intro _
    exact ⟨rfl, rfl⟩
  · intro hcon
    exact absurd hcon (by simp [freshSource, defaultSource])

theorem inv_of_count_zero (s : Source)
    (hc : s.xstats_count = 0) (hfc : s.filtered_count = 0)
    (hfp : s.filter_patterns.length = s.filter_patterns_capacity)
    (hact : s.filter_active = true →
      s.num_filter_patterns ≠ 0
      ∧ (s.filter_patterns.take s.num_filter_patterns).all Option.isSome = true) :
    SourceInv s := by
  refine ⟨hfp, fun _ => hfc, fun h => absurd hc h, by omega, ?_, ?_⟩
  · intro _
    refine ⟨by omega, ?_⟩
    simp [filteredPart, idsPart, hc, hfc]
  · intro ha
    refine ⟨(hact ha).1, (hact ha).2, ?_⟩
    simp [filteredPart, matchedIds, cachedPairs, hc, hfc]

theorem inv_clear (s : Source) (h : SourceInv s) :
    SourceInv (rte_sampler_source_clear_filter s).2 := by
  by_cases hv : s.valid = false
  · rw [show (rte_sampler_source_clear_filter s).2 = s from by
        simp [rte_sampler_source_clear_filter, hv]]
    exact h
  · rw [show (rte_sampler_source_clear_filter s).2
        = { s with
            filter_patterns := clearUpto s.filter_patterns s.num_filter_patterns,
            num_filter_patterns := 0,
            filter_active := false,
            filtered_count := s.xstats_count,
            filtered_ids := writeArr s.filtered_ids (s.ids.take s.xstats_count) }
      from by simp [rte_sampler_source_clear_filter, hv]]
    obtain ⟨h1, h2, h3, h4, h5, h6⟩ := h
    refine ⟨by rw [clearUpto_length]; exact h1, fun hc => hc, ?_, Nat.le_refl _, ?_, ?_⟩
    · intro hc
      obtain ⟨ha, hb, hcid, hd⟩ := h3 hc
      exact ⟨ha, hb, hcid, by rw [writeArr_length]; exact hd⟩
    · intro _
      refine ⟨rfl, ?_⟩
      by_cases hc : s.xstats_count = 0
      · simp [filteredPart, idsPart, hc]
      · simp only [filteredPart, idsPart]
        have hlen := (h3 hc).2.2
        exact writeArr_take_len s.filtered_ids (s.ids.take s.xstats_count) s.xstats_count
          (by simp only [List.length_take]; omega)
          (by simp only [List.length_take]; omega)
    · intro hcon
      exact absurd hcon (by simp)

theorem inv_zeroValues (s : Source) (h : SourceInv s) : SourceInv (zeroValues s) := by
  by_cases hz : s.values ≠ [] ∧ s.xstats_capacity > 0
  · rw [show zeroValues s = { s with values := s.values.map (fun _ => 0) } from by
        simp only [zeroValues, if_pos hz]]
    exact h
  · rw [show zeroValues s = s from by simp only [zeroValues, if_neg hz]]
    exact h


theorem apply_filter_fields (s : Source) :
    (apply_filter s).filter_patterns = s.filter_patterns
    ∧ (apply_filter s).num_filter_patterns = s.num_filter_patterns
    ∧ (apply_filter s).filter_patterns_capacity = s.filter_patterns_capacity
    ∧ (apply_filter s).filter_active = s.filter_active
    ∧ (apply_filter s).xstats_count = s.xstats_count
    ∧ (apply_filter s).xstats_names = s.xstats_names
    ∧ (apply_filter s).ids = s.ids
    ∧ (apply_filter s).xstats_capacity = s.xstats_capacity := by
  by_cases h : s.filter_active = false <;> simp [apply_filter, h]

theorem inv_apply_filter_populated (mid : Source) (hinvlike :
      mid.filter_patterns.length = mid.filter_patterns_capacity
      ∧ mid.xstats_count ≤ mid.xstats_capacity
      ∧ mid.xstats_names.length = mid.xstats_capacity
      ∧ mid.ids.length = mid.xstats_capacity
      ∧ mid.filtered_ids.length = mid.xstats_capacity
      ∧ (mid.filter_active = true →
          mid.num_filter_patterns ≠ 0
          ∧ (mid.filter_patterns.take mid.num_filter_patterns).all Option.isSome = true)) :
    SourceInv (apply_filter mid) := by
  obtain ⟨g1, g2, g3, g4, g5, g6⟩ := hinvlike
  have happ := apply_filter_inv mid (by omega) (by omega) (by omega)
  obtain ⟨f1, f2, f3, f4, f5, f6, f7, f8⟩ := apply_filter_fields mid
  refine ⟨?_, ?_, ?_, ?_, ?_, ?_⟩
  · rw [f1, f3]; exact g1
  · intro hz
    rw [f5] at hz
    have := happ.1
    omega
  · intro hz
    rw [f5] at hz ⊢
    rw [f6, f7, f8, happ.2.1]
    omega
  · rw [f5]; exact happ.1
  · intro ha
    rw [f4] at ha
    have := happ.2.2.1 ha
    rw [f5]
    exact this
  · intro ha
    rw [f4] at ha
    refine ⟨by rw [f2]; exact (g6 ha).1, by rw [f1, f2]; exact (g6 ha).2, ?_⟩
    exact happ.2.2.2 ha

theorem inv_cacheStats (s : Source) (resp : AdapterResp) (hconf : resp.Conforming)
    (h : SourceInv s) : SourceInv (cacheStats s resp).1 := by
  by_cases hc : s.xstats_count = 0
  · obtain ⟨h1, h2, h3, h4, h5, h6⟩ := h
    have hfc : s.filtered_count = 0 := h2 hc
    have hact : s.filter_active = true →
        s.num_filter_patterns ≠ 0
        ∧ (s.filter_patterns.take s.num_filter_patterns).all Option.isSome = true :=
      fun ha => ⟨(h6 ha).1, (h6 ha).2.1⟩
    by_cases hs1 : resp.sizeRet < 0
    · rw [show (cacheStats s resp).1 = s from by simp [cacheStats, hc, hs1]]
      exact ⟨h1, h2, h3, h4, h5, h6⟩
    · by_cases hs2 : resp.sizeRet = 0
      · rw [show (cacheStats s resp).1 = s from by simp [cacheStats, hc, hs1, hs2]]
        exact ⟨h1, h2, h3, h4, h5, h6⟩
      · by_cases ha1 : resp.allocNamesOk = false
        · rw [show (cacheStats s resp).1
              = { s with xstats_capacity := resp.sizeRet.toNat } from by
            simp [cacheStats, hc, hs1, hs2, ha1]]
          exact inv_of_count_zero _ hc hfc h1 hact
        · by_cases ha2 : resp.allocIdsOk = false
          · rw [show (cacheStats s resp).1
                = { s with xstats_capacity := resp.sizeRet.toNat, xstats_names := [] }
              from by simp [cacheStats, hc, hs1, hs2, ha1, ha2]]
            exact inv_of_count_zero _ hc hfc h1 hact
          · by_cases ha3 : resp.allocValuesOk = false
            · rw [show (cacheStats s resp).1
                  = { s with xstats_capacity := resp.sizeRet.toNat, xstats_names := [],
                             ids := [] }
                from by simp [cacheStats, hc, hs1, hs2, ha1, ha2, ha3]]
              exact inv_of_count_zero _ hc hfc h1 hact
            · by_cases ha4 : resp.allocFilteredOk = false
              · rw [show (cacheStats s resp).1
                    = { s with xstats_capacity := resp.sizeRet.toNat, xstats_names := [],
                               ids := [], values := [] }
                  from by simp [cacheStats, hc, hs1, hs2, ha1, ha2, ha3, ha4]]
                exact inv_of_count_zero _ hc hfc h1 hact
              · cases hfill : resp.fillRes with
                | err e =>
                  rw [show (cacheStats s resp).1
                      = { s with xstats_capacity := 0, xstats_names := [],
                                 ids := [], values := [], filtered_ids := [] }
                    from by simp [cacheStats, hc, hs1, hs2, ha1, ha2, ha3, ha4, hfill]]
                  exact inv_of_count_zero _ hc hfc h1 hact
                | ok stats =>
                  have hstats : stats.length ≤ resp.sizeRet.toNat := hconf stats hfill
                  rw [show (cacheStats s resp).1
                      = apply_filter
                        { s with
                          xstats_capacity := resp.sizeRet.toNat,
                          xstats_names :=
                            writeArr (List.replicate resp.sizeRet.toNat ([] : List Char))
                              (stats.map (fun st => st.name)),
                          ids := writeArr (List.replicate resp.sizeRet.toNat 0)
                              (stats.map (fun st => st.id)),
                          values := List.replicate resp.sizeRet.toNat 0,
                          filtered_ids := List.replicate resp.sizeRet.toNat 0,
                          xstats_count := stats.length }
                    from by simp [cacheStats, hc, hs1, hs2, ha1, ha2, ha3, ha4, hfill]]
                  apply inv_apply_filter_populated
                  refine ⟨h1, hstats, ?_, ?_, by simp, hact⟩
                  · rw [writeArr_length]
                    simp
                  · rw [writeArr_length]
                    simp
  · rw [show (cacheStats s resp).1 = s from by simp [cacheStats, hc]]
    exact h

theorem inv_sampleSource (s : Source) (resp : AdapterResp) (sinks : List Sink)
    (numSinks : Nat) (outRet : Nat → Int) (hconf : resp.Conforming)
    (h : SourceInv s) : SourceInv (sampleSource s resp sinks numSinks outRet).1 := by
  have hcache := inv_cacheStats s resp hconf h
  by_cases hp : (cacheStats s resp).2.2 = false
  · rw [show (sampleSource s resp sinks numSinks outRet).1 = (cacheStats s resp).1
      from by simp [sampleSource, hp]]
    exact hcache
  · by_cases hfc : (cacheStats s resp).1.filtered_count > 0
    · cases hget : resp.getRes with
      | err e =>
        rw [show (sampleSource s resp sinks numSinks outRet).1 = (cacheStats s resp).1
          from by simp [sampleSource, hp, hfc, hget]]
        exact hcache
      | ok vals =>
        rw [show (sampleSource s resp sinks numSinks outRet).1
            = { (cacheStats s resp).1 with
                values := writeN (cacheStats s resp).1.values vals
                  (cacheStats s resp).1.filtered_count }
          from by simp [sampleSource, hp, hfc, hget]]
        exact hcache
    · rw [show (sampleSource s resp sinks numSinks outRet).1 = (cacheStats s resp).1
        from by simp [sampleSource, hp, hfc]]
      exact hcache


theorem bool_eq_true_of_ne_false {b : Bool} (h : ¬b = false) : b = true := by
  cases b
  · exact absurd rfl h
  · rfl

theorem inv_finish (r2 : Source)
    (hfp : r2.filter_patterns.length = r2.filter_patterns_capacity)
    (hzero : r2.xstats_count = 0 → r2.filtered_count = 0)
    (hlens : r2.xstats_count ≠ 0 →
      r2.xstats_count ≤ r2.xstats_capacity
      ∧ r2.xstats_names.length = r2.xstats_capacity
      ∧ r2.ids.length = r2.xstats_capacity
      ∧ r2.filtered_ids.length = r2.xstats_capacity)
    (hnum : r2.num_filter_patterns ≠ 0)
    (hslots : (r2.filter_patterns.take r2.num_filter_patterns).all Option.isSome = true) :
    SourceInv (finishSetFilter r2).2 := by
  by_cases hc : r2.xstats_count = 0
  · rw [show (finishSetFilter r2).2 = { r2 with filter_active := true } from by
      simp [finishSetFilter, hc]]
    exact inv_of_count_zero { r2 with filter_active := true } hc (hzero hc) hfp
      (fun _ => ⟨hnum, hslots⟩)
  · rw [show (finishSetFilter r2).2 = apply_filter { r2 with filter_active := true }
      from by simp [finishSetFilter, Nat.pos_of_ne_zero hc]]
    exact inv_apply_filter_populated { r2 with filter_active := true }
      ⟨hfp, (hlens hc).1, (hlens hc).2.1, (hlens hc).2.2.1, (hlens hc).2.2.2,
        fun _ => ⟨hnum, hslots⟩⟩

theorem inv_set_filter (s : Source) (patterns : Option (List (List Char)))
    (growOk : Bool) (copyOk : Nat → Bool)
    (hok : (rte_sampler_source_set_filter s patterns growOk copyOk).1 = 0)
    (h : SourceInv s) :
    SourceInv (rte_sampler_source_set_filter s patterns growOk copyOk).2 := by
  by_cases hv : s.valid = false
  · exfalso
    rw [show (rte_sampler_source_set_filter s patterns growOk copyOk).1 = -EINVAL
      from by simp [rte_sampler_source_set_filter, hv]] at hok
    norm_num [EINVAL] at hok
  · have hvt : s.valid = true := bool_eq_true_of_ne_false hv
    cases patterns with
    | none =>
      exfalso
      rw [show (rte_sampler_source_set_filter s none growOk copyOk).1 = -EINVAL
        from by simp [rte_sampler_source_set_filter, hv]] at hok
      norm_num [EINVAL] at hok
    | some ps =>
      by_cases hlen : ps.length = 0
      · exfalso
        rw [show (rte_sampler_source_set_filter s (some ps) growOk copyOk).1 = -EINVAL
          from by simp [rte_sampler_source_set_filter, hv, hlen]] at hok
        norm_num [EINVAL] at hok
      · obtain ⟨h1, h2, h3, h4, h5, h6⟩ := h
        by_cases hgrow : ps.length > s.filter_patterns_capacity ∧ growOk = false
        · exfalso
          have hgnone : setFilterGrow
              { s with
                filter_patterns := clearUpto s.filter_patterns s.num_filter_patterns }
              ps.length growOk = none := by
            simp [setFilterGrow, hgrow.1, hgrow.2]
          rw [show (rte_sampler_source_set_filter s (some ps) growOk copyOk).1 = -ENOMEM
            from by
              rw [show rte_sampler_source_set_filter s (some ps) growOk copyOk
                  = setFilterBody s ps growOk copyOk from by
                simp [rte_sampler_source_set_filter, hv, hlen]]
              simp only [setFilterBody, hgnone]] at hok
          norm_num [ENOMEM] at hok
        · -- the grow step produced a pattern array `base`
          by_cases hcopy : ∀ k, k < ps.length → copyOk k = true
          · -- all copies succeed: reduce to finishSetFilter of the copied state
            by_cases hcap : ps.length > s.filter_patterns_capacity
            · have hgOk : growOk = true := by
                cases hg : growOk
                · exact absurd ⟨hcap, hg⟩ hgrow
                · rfl
              subst hgOk
              have hred : rte_sampler_source_set_filter s (some ps) true copyOk
                  = (let r := copyPatterns copyOk
                      { s with filter_patterns := List.replicate ps.length none,
                               filter_patterns_capacity := ps.length,
                               num_filter_patterns := 0 } ps 0
                     if r.1 < 0 then r else finishSetFilter r.2) := by
                simp only [rte_sampler_source_set_filter, setFilterBody, setFilterGrow,
                  hv, hlen, hcap]
                simp [hv, hlen, hcap]
              rw [hred]
              rw [copyPatterns_ok copyOk ps _ 0 (fun k hk => by simpa using hcopy k hk)]
              rw [if_neg (by norm_num)]
              apply inv_finish
              · rw [setSome_length]
                simp
              · exact h2
              · exact h3
              · simp only []
                omega
              · simp only [Nat.zero_add]
                exact setSome_take_all_isSome ps _ (by simp)
            · have hred : rte_sampler_source_set_filter s (some ps) growOk copyOk
                  = (let r := copyPatterns copyOk
                      { s with
                        filter_patterns :=
                          clearUpto s.filter_patterns s.num_filter_patterns,
                        num_filter_patterns := 0 } ps 0
                     if r.1 < 0 then r else finishSetFilter r.2) := by
                simp only [rte_sampler_source_set_filter, setFilterBody, setFilterGrow,
                  hv, hlen, hcap]
                simp [hv, hlen, hcap]
              rw [hred]
              rw [copyPatterns_ok copyOk ps _ 0 (fun k hk => by simpa using hcopy k hk)]
              rw [if_neg (by norm_num)]
              apply inv_finish
              · rw [setSome_length, clearUpto_length]
                exact h1
              · exact h2
              · exact h3
              · simp only []
                omega
              · simp only [Nat.zero_add]
                refine setSome_take_all_isSome ps _ ?_
                rw [clearUpto_length]
                omega
          · -- some copy fails: contradiction with hok
            exfalso
            have hex : ∃ k, k < ps.length ∧ copyOk k = false := by
              push_neg at hcopy
              obtain ⟨k, hk1, hk2⟩ := hcopy
              exact ⟨k, hk1, by cases hb : copyOk k
                                · rfl
                                · exact absurd hb hk2⟩
            have hj1 := (Nat.find_spec hex).1
            have hj2 := (Nat.find_spec hex).2
            have hjmin : ∀ k, k < Nat.find hex → copyOk (0 + k) = true := by
              intro k hk
              have hnot := Nat.find_min hex hk
              simp only [Nat.zero_add]
              cases hb : copyOk k
              · exact absurd ⟨by omega, hb⟩ hnot
              · rfl
            by_cases hcap : ps.length > s.filter_patterns_capacity
            · have hgOk : growOk = true := by
                cases hg : growOk
                · exact absurd ⟨hcap, hg⟩ hgrow
                · rfl
              subst hgOk
              have hred : rte_sampler_source_set_filter s (some ps) true copyOk
                  = (let r := copyPatterns copyOk
                      { s with filter_patterns := List.replicate ps.length none,
                               filter_patterns_capacity := ps.length,
                               num_filter_patterns := 0 } ps 0
                     if r.1 < 0 then r else finishSetFilter r.2) := by
                simp only [rte_sampler_source_set_filter, setFilterBody, setFilterGrow,
                  hv, hlen, hcap]
                simp [hv, hlen, hcap]
              rw [hred] at hok
              have hfail := copyPatterns_fail copyOk ps
                { s with filter_patterns := List.replicate ps.length none,
                         filter_patterns_capacity := ps.length,
                         num_filter_patterns := 0 } 0 (Nat.find hex) hvt hj1 hjmin
                (by simpa using hj2)
              simp only [hfail.1] at hok
              rw [if_pos (by norm_num [ENOMEM])] at hok
              rw [hfail.1] at hok
              norm_num [ENOMEM] at hok
            · have hred : rte_sampler_source_set_filter s (some ps) growOk copyOk
                  = (let r := copyPatterns copyOk
                      { s with
                        filter_patterns :=
                          clearUpto s.filter_patterns s.num_filter_patterns,
                        num_filter_patterns := 0 } ps 0
                     if r.1 < 0 then r else finishSetFilter r.2) := by
                simp only [rte_sampler_source_set_filter, setFilterBody, setFilterGrow,
                  hv, hlen, hcap]
                simp [hv, hlen, hcap]
              rw [hred] at hok
              have hfail := copyPatterns_fail copyOk ps
                { s with
                  filter_patterns :=
                    clearUpto s.filter_patterns s.num_filter_patterns,
                  num_filter_patterns := 0 } 0 (Nat.find hex) hvt hj1 hjmin
                (by simpa using hj2)
              simp only [hfail.1] at hok
              rw [if_pos (by norm_num [ENOMEM])] at hok
              rw [hfail.1] at hok
              norm_num [ENOMEM] at hok


/-- One mutation of a source record by the modelled operations (any outcome,
including failed set_filter calls); adapters are assumed conforming. -/
inductive SourceStep : Source → Source → Prop
  | sample (s : Source) (resp : AdapterResp) (sinks : List Sink) (numSinks : Nat)
      (outRet : Nat → Int) (hconf : resp.Conforming) :
      SourceStep s (sampleSource s resp sinks numSinks outRet).1
  | set_filter (s : Source) (patterns : Option (List (List Char))) (growOk : Bool)
      (copyOk : Nat → Bool) :
      SourceStep s (rte_sampler_source_set_filter s patterns growOk copyOk).2
  | clear (s : Source) : SourceStep s (rte_sampler_source_clear_filter s).2
  | reset (s : Source) : SourceStep s (zeroValues s)

/-- Like `SourceStep`, but set_filter calls are required to succeed. -/
inductive SourceStepOk : Source → Source → Prop
  | sample (s : Source) (resp : AdapterResp) (sinks : List Sink) (numSinks : Nat)
      (outRet : Nat → Int) (hconf : resp.Conforming) :
      SourceStepOk s (sampleSource s resp sinks numSinks outRet).1
  | set_filter (s : Source) (patterns : Option (List (List Char))) (growOk : Bool)
      (copyOk : Nat → Bool)
      (hok : (rte_sampler_source_set_filter s patterns growOk copyOk).1 = 0) :
      SourceStepOk s (rte_sampler_source_set_filter s patterns growOk copyOk).2
  | clear (s : Source) : SourceStepOk s (rte_sampler_source_clear_filter s).2
  | reset (s : Source) : SourceStepOk s (zeroValues s)

/-- Source states reachable from a fresh registration by any operations. -/
inductive SourceReachable : Source → Prop
  | init (nm : List Char) (sid : Nat) (hr : Bool) :
      SourceReachable (freshSource nm sid hr)
  | step {s t : Source} : SourceReachable s → SourceStep s t → SourceReachable t

/-- Source states reachable when every set_filter call succeeded. -/
inductive SourceReachableOk : Source → Prop
  | init (nm : List Char) (sid : Nat) (hr : Bool) :
      SourceReachableOk (freshSource nm sid hr)
  | step {s t : Source} : SourceReachableOk s → SourceStepOk s t → SourceReachableOk t

theorem source_inv_of_reachable : ∀ s, SourceReachableOk s → SourceInv s := by
  intro s h
  induction h with
  | init nm sid hr => exact inv_fresh nm sid hr
  | step _ hstep ih =>
    cases hstep with
    | sample resp sinks numSinks outRet hconf =>
      exact inv_sampleSource _ resp sinks numSinks outRet hconf ih
    | set_filter patterns growOk copyOk hok =>
      exact inv_set_filter _ patterns growOk copyOk hok ih
    | clear => exact inv_clear _ ih
    | reset => exact inv_zeroValues _ ih

/-- C4 (amended): along any sequence of operations in which every
`set_filter` call succeeds, `filtered_ids[0..filtered_count)` is an
order-preserving subsequence of `ids[0..xstats_count)` (so
`filtered_count ≤ xstats_count`), and while a filter is active an id is in
the filtered projection iff some cached stat carries that id and a stored
pattern matches its name.  (After a failed `set_filter`, the stored patterns
are gone while the projection survives, so the claim as stated fails — see
the counterexample.) -/
theorem filtered_ids_invariant :
    ∀ s : Source, SourceReachableOk s →
      (filteredPart s).Sublist (idsPart s)
      ∧ s.filtered_count ≤ s.xstats_count
      ∧ (s.filter_active = true →
          ∀ v : Nat, v ∈ filteredPart s ↔
            ∃ p, p ∈ cachedPairs s ∧ p.2 = v
              ∧ (livePatterns s).any (fun pat => matchPat pat p.1) = true) := by
  intro s h
  obtain ⟨h1, h2, h3, h4, h5, h6⟩ := source_inv_of_reachable s h
  have hmf : s.filter_active = true →
      ∀ nm, matchesFilter s nm = (livePatterns s).any (fun pat => matchPat pat nm) := by
    intro ha nm
    have hnum := (h6 ha).1
    rw [show matchesFilter s nm
        = (s.filter_patterns.take s.num_filter_patterns).any
            (fun p => matchPat (p.getD []) nm) from by
      simp [matchesFilter, ha, hnum]]
    exact any_getD_eq_any_reduceOption (fun pat => matchPat pat nm) _ (h6 ha).2.1
  refine ⟨?_, h4, ?_⟩
  · by_cases ha : s.filter_active = true
    · rw [(h6 ha).2.2]
      exact filter_zip_snd_sublist (fun p => matchesFilter s p.1)
        (s.xstats_names.take s.xstats_count) (s.ids.take s.xstats_count)
    · have haf : s.filter_active = false := by
        cases hb : s.filter_active
        · rfl
        · exact absurd hb ha
      rw [(h5 haf).2]
  · intro ha v
    rw [(h6 ha).2.2]
    simp only [matchedIds, List.mem_map, List.mem_filter]
    constructor
    · rintro ⟨p, ⟨hp, hmat⟩, hv⟩
      refine ⟨p, hp, hv, ?_⟩
      rw [← hmf ha]
      exact hmat
    · rintro ⟨p, hp, hv, hany⟩
      refine ⟨p, ⟨hp, ?_⟩, hv⟩
      rw [hmf ha]
      exact hany

theorem filtered_ids_invariant_witness :
    (filteredPart (freshSource [] 0 false)).Sublist (idsPart (freshSource [] 0 false))
    ∧ (freshSource [] 0 false).filtered_count ≤ (freshSource [] 0 false).xstats_count
    ∧ ((freshSource [] 0 false).filter_active = true →
        ∀ v : Nat, v ∈ filteredPart (freshSource [] 0 false) ↔
          ∃ p, p ∈ cachedPairs (freshSource [] 0 false) ∧ p.2 = v
            ∧ (livePatterns (freshSource [] 0 false)).any
                (fun pat => matchPat pat p.1) = true) :=
  filtered_ids_invariant (freshSource [] 0 false) (SourceReachableOk.init [] 0 false)


/-- C4 counterexample: starting from a fresh source, a successful
`set_filter(["*"])`, one sampling pass (caching one stat named "a" with id 5,
so `filtered_ids = [5]`), and then a `set_filter` that fails its grow
allocation reach a state where the filter is still active and id 5 is still
in `filtered_ids`, but no stored pattern exists any more — so "id appears in
filtered_ids iff its cached name matches a stored pattern" is false for the
operation sequence as claimed (which includes failing set_filter calls). -/
theorem filtered_ids_counterexample :
    SourceReachable
      (rte_sampler_source_set_filter
        (sampleSource
          (rte_sampler_source_set_filter (freshSource ['s'] 0 false)
            (some [['*']]) true (fun _ => true)).2
          { sizeRet := 1, allocNamesOk := true, allocIdsOk := true,
            allocValuesOk := true, allocFilteredOk := true,
            fillRes := AdapterRes.ok [{ name := ['a'], id := 5 }],
            getRes := AdapterRes.ok [11] }
          [] 0 (fun _ => 0)).1
        (some [['a'], ['b']]) false (fun _ => true)).2
    ∧ (let t := (rte_sampler_source_set_filter
        (sampleSource
          (rte_sampler_source_set_filter (freshSource ['s'] 0 false)
            (some [['*']]) true (fun _ => true)).2
          { sizeRet := 1, allocNamesOk := true, allocIdsOk := true,
            allocValuesOk := true, allocFilteredOk := true,
            fillRes := AdapterRes.ok [{ name := ['a'], id := 5 }],
            getRes := AdapterRes.ok [11] }
          [] 0 (fun _ => 0)).1
        (some [['a'], ['b']]) false (fun _ => true)).2
       t.filter_active = true ∧ (5 : Nat) ∈ filteredPart t ∧ livePatterns t = []
       ∧ ¬((5 : Nat) ∈ filteredPart t ↔
            ∃ p, p ∈ cachedPairs t ∧ p.2 = 5
              ∧ (livePatterns t).any (fun pat => matchPat pat p.1) = true)) := by
  have hm : matchPat ['*'] ['a'] = true := by
    simp [matchPat, dropStars]
  have h1eq : (rte_sampler_source_set_filter (freshSource ['s'] 0 false)
      (some [['*']]) true (fun _ => true)).2
      = { defaultSource with
          name := ['s'], valid := true, filter_active := true,
          num_filter_patterns := 1, filter_patterns := [some ['*']],
          filter_patterns_capacity := 1 } := by
    decide
  have h2eq : (sampleSource
      ({ defaultSource with
          name := ['s'], valid := true, filter_active := true,
          num_filter_patterns := 1, filter_patterns := [some ['*']],
          filter_patterns_capacity := 1 } : Source)
      { sizeRet := 1, allocNamesOk := true, allocIdsOk := true,
        allocValuesOk := true, allocFilteredOk := true,
        fillRes := AdapterRes.ok [{ name := ['a'], id := 5 }],
        getRes := AdapterRes.ok [11] }
      [] 0 (fun _ => 0)).1
      = { defaultSource with
          name := ['s'], valid := true, filter_active := true,
          num_filter_patterns := 1, filter_patterns := [some ['*']],
          filter_patterns_capacity := 1,
          xstats_names := [['a']], ids := [5], values := [11],
          xstats_count := 1, xstats_capacity := 1,
          filtered_ids := [5], filtered_count := 1 } := by
    simp [sampleSource, cacheStats, apply_filter, matchedIds, cachedPairs,
      matchesFilter, writeArr, writeN, hm, defaultSource]
  have h3eq : (rte_sampler_source_set_filter
      ({ defaultSource with
          name := ['s'], valid := true, filter_active := true,
          num_filter_patterns := 1, filter_patterns := [some ['*']],
          filter_patterns_capacity := 1,
          xstats_names := [['a']], ids := [5], values := [11],
          xstats_count := 1, xstats_capacity := 1,
          filtered_ids := [5], filtered_count := 1 } : Source)
      (some [['a'], ['b']]) false (fun _ => true)).2
      = { defaultSource with
          name := ['s'], valid := true, filter_active := true,
          num_filter_patterns := 1, filter_patterns := [none],
          filter_patterns_capacity := 1,
          xstats_names := [['a']], ids := [5], values := [11],
          xstats_count := 1, xstats_capacity := 1,
          filtered_ids := [5], filtered_count := 1 } := by
    decide
  constructor
  · exact SourceReachable.step
      (SourceReachable.step
        (SourceReachable.step (SourceReachable.init ['s'] 0 false)
          (SourceStep.set_filter (freshSource ['s'] 0 false)
            (some [['*']]) true (fun _ => true)))
        (SourceStep.sample _
          { sizeRet := 1, allocNamesOk := true, allocIdsOk := true,
            allocValuesOk := true, allocFilteredOk := true,
            fillRes := AdapterRes.ok [{ name := ['a'], id := 5 }],
            getRes := AdapterRes.ok [11] }
          [] 0 (fun _ => 0)
          (by intro stats hst
              injection hst with hst
              rw [← hst]
              decide)))
      (SourceStep.set_filter _ (some [['a'], ['b']]) false (fun _ => true))
  · rw [h1eq, h2eq, h3eq]
    refine ⟨by decide, by decide, by decide, by decide⟩


/-! ## C9: registration order and visit order (rte_sampler.c:312-371, 396-453, 477-482) -/

/-- `INITIAL_SOURCES_PER_SESSION` (rte_sampler.c:16). -/
def INITIAL_SOURCES_PER_SESSION : Nat := 8

/-- `INITIAL_SINKS_PER_SESSION` (rte_sampler.c:17). -/
def INITIAL_SINKS_PER_SESSION : Nat := 4

/-- The session-local part of `rte_sampler_session_create` (rte_sampler.c:92-196):
zeroed source/sink arrays at their initial capacities, configuration stored,
valid set.  (The global-registry insertion is not modelled here.) -/
def rte_sampler_session_create (nm : List Char) (interval duration : Nat) : Session :=
  { name := nm, sample_interval_ms := interval, duration_ms := duration,
    start_time := 0, last_sample_time := 0, active := false, valid := true,
    sources := List.replicate INITIAL_SOURCES_PER_SESSION defaultSource,
    sinks := List.replicate INITIAL_SINKS_PER_SESSION defaultSink,
    num_sources := 0, num_sinks := 0 }

/-- The `for (i = 0; i < capacity; i++) if (!sources[i].valid) break;` free-slot
scan of `rte_sampler_source_register` (rte_sampler.c:331-334). -/
def findFreeSlot : List Source → Nat → Option Nat
  | [], _ => none
  | src :: rest, i => if src.valid = false then some i else findFreeSlot rest (i + 1)

/-- The free-slot scan of `rte_sampler_sink_register` (rte_sampler.c:414-417). -/
def findFreeSinkSlot : List Sink → Nat → Option Nat
  | [], _ => none
  | sk :: rest, i => if sk.valid = false then some i else findFreeSinkSlot rest (i + 1)

/-- Shallow embedding of `rte_sampler_source_register` (rte_sampler.c:312-371):
take the first invalid slot, or grow the array by doubling and take the first
new slot; memset the slot and fill it; bump `num_sources` past the slot. -/
def rte_sampler_source_register (sess : Session) (nm : List Char) (sid : Nat)
    (hasReset : Bool) : Session :=
  if sess.valid = false then sess
  else
    match findFreeSlot sess.sources 0 with
    | some i =>
      { sess with sources := sess.sources.set i (freshSource nm sid hasReset),
                  num_sources := if i ≥ sess.num_sources then i + 1
                                 else sess.num_sources }
    | none =>
      let i := sess.sources.length
      { sess with
          sources := (sess.sources ++
              List.replicate sess.sources.length defaultSource).set i
            (freshSource nm sid hasReset),
          num_sources := if i ≥ sess.num_sources then i + 1 else sess.num_sources }

/-- Shallow embedding of `rte_sampler_source_unregister` (rte_sampler.c:373-383)
for the source in slot `i`: mark it invalid (storage stays in place). -/
def rte_sampler_source_unregister (sess : Session) (i : Nat) : Session :=
  match sess.sources.get? i with
  | none => sess
  | some src =>
    if src.valid = false then sess
    else { sess with sources := sess.sources.set i { src with valid := false } }

/-- The sink record produced by `rte_sampler_sink_register` (rte_sampler.c:440-447). -/
def freshSink (nm : List Char) (flags : Nat) : Sink :=
  { name := nm, flags := flags, valid := true }

/-- Shallow embedding of `rte_sampler_sink_register` (rte_sampler.c:396-453):
same first-invalid-slot discipline as source registration. -/
def rte_sampler_sink_register (sess : Session) (nm : List Char) (flags : Nat) : Session :=
  if sess.valid = false then sess
  else
    match findFreeSinkSlot sess.sinks 0 with
    | some i =>
      { sess with sinks := sess.sinks.set i (freshSink nm flags),
                  num_sinks := if i ≥ sess.num_sinks then i + 1 else sess.num_sinks }
    | none =>
      let i := sess.sinks.length
      { sess with
          sinks := (sess.sinks ++ List.replicate sess.sinks.length defaultSink).set i
            (freshSink nm flags),
          num_sinks := if i ≥ sess.num_sinks then i + 1 else sess.num_sinks }

/-- The sources `rte_sampler_sample` visits, in visiting order: the valid
slots among `0 ≤ i < num_sources` (rte_sampler.c:478-482). -/
def visitOrder (sess : Session) : List Source :=
  (sess.sources.take sess.num_sources).filter (fun src => src.valid)

/-- The sinks the fan-out loop invokes, in invocation order
(rte_sampler.c:579-584). -/
def sinkVisitOrder (sess : Session) : List Sink :=
  (sess.sinks.take sess.num_sinks).filter (fun sk => sk.valid)

/-- The slots the `for (i = 0; i < num_sources; i++)` loop samples, in order. -/
def visitIdx : List Source → Nat → Nat → List Nat
  | [], _, _ => []
  | src :: rest, i, num =>
    if i < num then
      (if src.valid then [i] else []) ++ visitIdx rest (i + 1) num
    else []

/-- Register a list of sources (name, id) in order. -/
def applySourceRegs (sess : Session) (regs : List (List Char × Nat)) : Session :=
  regs.foldl (fun s r => rte_sampler_source_register s r.1 r.2 false) sess

/-- Register a list of sinks (name, flags) in order. -/
def applySinkRegs (sess : Session) (regs : List (List Char × Nat)) : Session :=
  regs.foldl (fun s r => rte_sampler_sink_register s r.1 r.2) sess

theorem sampleSources_trace_idx (sinks : List Sink) (numSinks : Nat)
    (adapters : Nat → AdapterResp) (outRet : Nat → Nat → Int) :
    ∀ (srcs : List Source) (i num : Nat),
      ((sampleSources sinks numSinks adapters outRet srcs i num).2).map
          (fun t => t.1)
        = visitIdx srcs i num := by
  intro srcs
  induction srcs with
  | nil => intro i num; simp [sampleSources, visitIdx]
  | cons src rest ih =>
    intro i num
    by_cases hi : i < num
    · by_cases hv : src.valid
      · simp [sampleSources, visitIdx, hi, hv, ih]
      · simp [sampleSources, visitIdx, hi, hv, ih]
    · simp [sampleSources, visitIdx, hi]


theorem set_len_append {α : Type} :
    ∀ (A B : List α) (v : α), (A ++ B).set A.length v = A ++ B.set 0 v := by
  intro A
  induction A with
  | nil => intro B v; simp
  | cons a A ih => intro B v; simp [ih]

theorem findFreeSlot_good :
    ∀ (done : List Source) (m i : Nat), (∀ x ∈ done, x.valid = true) →
      findFreeSlot (done ++ List.replicate m defaultSource) i
        = if m = 0 then none else some (i + done.length) := by
  intro done
  induction done with
  | nil =>
    intro m i _
    cases m with
    | zero => simp [findFreeSlot]
    | succ m => simp [findFreeSlot, defaultSource]
  | cons d done ih =>
    intro m i hval
    have hd : d.valid = true := hval d (by simp)
    rw [show ((d :: done) ++ List.replicate m defaultSource)
          = d :: (done ++ List.replicate m defaultSource) from rfl]
    rw [show findFreeSlot (d :: (done ++ List.replicate m defaultSource)) i
          = findFreeSlot (done ++ List.replicate m defaultSource) (i + 1) from by
      simp [findFreeSlot, hd]]
    rw [ih m (i + 1) (fun x hx => hval x (by simp [hx]))]
    by_cases hm : m = 0
    · simp [hm]
    · simp only [hm, if_false]
      rw [show i + 1 + done.length = i + (done.length + 1) from by omega]
      simp

theorem findFreeSinkSlot_good :
    ∀ (done : List Sink) (m i : Nat), (∀ x ∈ done, x.valid = true) →
      findFreeSinkSlot (done ++ List.replicate m defaultSink) i
        = if m = 0 then none else some (i + done.length) := by
  intro done
  induction done with
  | nil =>
    intro m i _
    cases m with
    | zero => simp [findFreeSinkSlot]
    | succ m => simp [findFreeSinkSlot, defaultSink]
  | cons d done ih =>
    intro m i hval
    have hd : d.valid = true := hval d (by simp)
    rw [show ((d :: done) ++ List.replicate m defaultSink)
          = d :: (done ++ List.replicate m defaultSink) from rfl]
    rw [show findFreeSinkSlot (d :: (done ++ List.replicate m defaultSink)) i
          = findFreeSinkSlot (done ++ List.replicate m defaultSink) (i + 1) from by
      simp [findFreeSinkSlot, hd]]
    rw [ih m (i + 1) (fun x hx => hval x (by simp [hx]))]
    by_cases hm : m = 0
    · simp [hm]
    · simp only [hm, if_false]
      rw [show i + 1 + done.length = i + (done.length + 1) from by omega]
      simp

/-- The state of a session's source array after a sequence of registrations
with no unregister: the registered records fill a prefix, the rest is the
zeroed padding. -/
def GoodSrc (sess : Session) (done : List Source) : Prop :=
  sess.valid = true
  ∧ sess.num_sources = done.length
  ∧ (∀ x ∈ done, x.valid = true)
  ∧ ∃ m, sess.sources = done ++ List.replicate m defaultSource ∧ 0 < done.length + m

/-- Sink-side analogue of `GoodSrc`. -/
def GoodSink (sess : Session) (done : List Sink) : Prop :=
  sess.valid = true
  ∧ sess.num_sinks = done.length
  ∧ (∀ x ∈ done, x.valid = true)
  ∧ ∃ m, sess.sinks = done ++ List.replicate m defaultSink ∧ 0 < done.length + m

theorem register_good (sess : Session) (done : List Source) (nm : List Char) (sid : Nat)
    (h : GoodSrc sess done) :
    GoodSrc (rte_sampler_source_register sess nm sid false)
      (done ++ [freshSource nm sid false]) := by
  obtain ⟨hv, hnum, hval, m, hsrc, hpos⟩ := h
  have hvne : ¬sess.valid = false := by rw [hv]; simp
  cases m with
  | zero =>
    have hdl : 0 < done.length := by omega
    have hfind : findFreeSlot sess.sources 0 = none := by
      rw [hsrc, findFreeSlot_good done 0 0 hval]
      simp
    have hlen : sess.sources.length = done.length := by
      rw [hsrc]; simp
    rw [show rte_sampler_source_register sess nm sid false
        = { sess with
            sources := (sess.sources ++
                List.replicate sess.sources.length defaultSource).set
              sess.sources.length (freshSource nm sid false),
            num_sources := if sess.sources.length ≥ sess.num_sources
                           then sess.sources.length + 1 else sess.num_sources }
      from by simp [rte_sampler_source_register, hvne, hfind]]
    refine ⟨hv, ?_, ?_, ⟨done.length - 1, ?_,
      by simp only [List.length_append, List.length_cons, List.length_nil]; omega⟩⟩
    · rw [hlen, hnum]
      simp
    · intro x hx
      rcases List.mem_append.mp hx with hx | hx
      · exact hval x hx
      · rw [List.mem_singleton.mp hx]
        rfl
    · simp only []
      rw [set_len_append, hlen, hsrc]
      simp only [List.replicate_zero, List.append_nil]
      rw [show List.replicate done.length defaultSource
            = defaultSource :: List.replicate (done.length - 1) defaultSource from by
        cases hd : done.length with
        | zero => omega
        | succ n =>
          rw [List.replicate_succ]
          simp]
      simp
  | succ m2 =>
    have hfind : findFreeSlot sess.sources 0 = some done.length := by
      rw [hsrc, findFreeSlot_good done (m2 + 1) 0 hval]
      simp
    rw [show rte_sampler_source_register sess nm sid false
        = { sess with
            sources := sess.sources.set done.length (freshSource nm sid false),
            num_sources := if done.length ≥ sess.num_sources
                           then done.length + 1 else sess.num_sources }
      from by simp [rte_sampler_source_register, hvne, hfind]]
    refine ⟨hv, ?_, ?_, ⟨m2, ?_,
      by simp only [List.length_append, List.length_cons, List.length_nil]; omega⟩⟩
    · rw [hnum]
      simp
    · intro x hx
      rcases List.mem_append.mp hx with hx | hx
      · exact hval x hx
      · rw [List.mem_singleton.mp hx]
        rfl
    · rw [hsrc, set_len_append]
      rw [show (List.replicate (m2 + 1) defaultSource).set 0 (freshSource nm sid false)
            = freshSource nm sid false :: List.replicate m2 defaultSource from by
        rw [List.replicate_succ]
        rfl]
      simp

theorem sink_register_good (sess : Session) (done : List Sink) (nm : List Char) (flags : Nat)
    (h : GoodSink sess done) :
    GoodSink (rte_sampler_sink_register sess nm flags)
      (done ++ [freshSink nm flags]) := by
  obtain ⟨hv, hnum, hval, m, hsrc, hpos⟩ := h
  have hvne : ¬sess.valid = false := by rw [hv]; simp
  cases m with
  | zero =>
    have hdl : 0 < done.length := by omega
    have hfind : findFreeSinkSlot sess.sinks 0 = none := by
      rw [hsrc, findFreeSinkSlot_good done 0 0 hval]
      simp
    have hlen : sess.sinks.length = done.length := by
      rw [hsrc]; simp
    rw [show rte_sampler_sink_register sess nm flags
        = { sess with
            sinks := (sess.sinks ++
                List.replicate sess.sinks.length defaultSink).set
              sess.sinks.length (freshSink nm flags),
            num_sinks := if sess.sinks.length ≥ sess.num_sinks
                         then sess.sinks.length + 1 else sess.num_sinks }
      from by simp [rte_sampler_sink_register, hvne, hfind]]
    refine ⟨hv, ?_, ?_, ⟨done.length - 1, ?_,
      by simp only [List.length_append, List.length_cons, List.length_nil]; omega⟩⟩
    · rw [hlen, hnum]
      simp
    · intro x hx
      rcases List.mem_append.mp hx with hx | hx
      · exact hval x hx
      · rw [List.mem_singleton.mp hx]
        rfl
    · simp only []
      rw [set_len_append, hlen, hsrc]
      simp only [List.replicate_zero, List.append_nil]
      rw [show List.replicate done.length defaultSink
            = defaultSink :: List.replicate (done.length - 1) defaultSink from by
        cases hd : done.length with
        | zero => omega
        | succ n =>
          rw [List.replicate_succ]
          simp]
      simp
  | succ m2 =>
    have hfind : findFreeSinkSlot sess.sinks 0 = some done.length := by
      rw [hsrc, findFreeSinkSlot_good done (m2 + 1) 0 hval]
      simp
    rw [show rte_sampler_sink_register sess nm flags
        = { sess with
            sinks := sess.sinks.set done.length (freshSink nm flags),
            num_sinks := if done.length ≥ sess.num_sinks
                         then done.length + 1 else sess.num_sinks }
      from by simp [rte_sampler_sink_register, hvne, hfind]]
    refine ⟨hv, ?_, ?_, ⟨m2, ?_,
      by simp only [List.length_append, List.length_cons, List.length_nil]; omega⟩⟩
    · rw [hnum]
      simp
    · intro x hx
      rcases List.mem_append.mp hx with hx | hx
      · exact hval x hx
      · rw [List.mem_singleton.mp hx]
        rfl
    · rw [hsrc, set_len_append]
      rw [show (List.replicate (m2 + 1) defaultSink).set 0 (freshSink nm flags)
            = freshSink nm flags :: List.replicate m2 defaultSink from by
        rw [List.replicate_succ]
        rfl]
      simp

theorem applySourceRegs_good :
    ∀ (regs : List (List Char × Nat)) (sess : Session) (done : List Source),
      GoodSrc sess done →
      GoodSrc (applySourceRegs sess regs)
        (done ++ regs.map (fun r => freshSource r.1 r.2 false)) := by
  intro regs
  induction regs with
  | nil => intro sess done h; simpa [applySourceRegs] using h
  | cons r rs ih =>
    intro sess done h
    have h2 := register_good sess done r.1 r.2 h
    have h3 := ih (rte_sampler_source_register sess r.1 r.2 false)
      (done ++ [freshSource r.1 r.2 false]) h2
    rw [show applySourceRegs sess (r :: rs)
        = applySourceRegs (rte_sampler_source_register sess r.1 r.2 false) rs from rfl]
    simpa [List.append_assoc] using h3

theorem applySinkRegs_good :
    ∀ (regs : List (List Char × Nat)) (sess : Session) (done : List Sink),
      GoodSink sess done →
      GoodSink (applySinkRegs sess regs)
        (done ++ regs.map (fun r => freshSink r.1 r.2)) := by
  intro regs
  induction regs with
  | nil => intro sess done h; simpa [applySinkRegs] using h
  | cons r rs ih =>
    intro sess done h
    have h2 := sink_register_good sess done r.1 r.2 h
    have h3 := ih (rte_sampler_sink_register sess r.1 r.2)
      (done ++ [freshSink r.1 r.2]) h2
    rw [show applySinkRegs sess (r :: rs)
        = applySinkRegs (rte_sampler_sink_register sess r.1 r.2) rs from rfl]
    simpa [List.append_assoc] using h3

theorem filter_valid_all_src :
    ∀ (l : List Source), (∀ x ∈ l, x.valid = true) →
      l.filter (fun src => src.valid) = l := by
  intro l
  induction l with
  | nil => intro _; rfl
  | cons a l ih =>
    intro h
    rw [show (a :: l).filter (fun src => src.valid) = a :: l.filter (fun src => src.valid)
      from by simp [h a (by simp)]]
    rw [ih (fun x hx => h x (by simp [hx]))]

theorem filter_valid_all_sink :
    ∀ (l : List Sink), (∀ x ∈ l, x.valid = true) →
      l.filter (fun sk => sk.valid) = l := by
  intro l
  induction l with
  | nil => intro _; rfl
  | cons a l ih =>
    intro h
    rw [show (a :: l).filter (fun sk => sk.valid) = a :: l.filter (fun sk => sk.valid)
      from by simp [h a (by simp)]]
    rw [ih (fun x hx => h x (by simp [hx]))]

theorem visitIdx_all_valid :
    ∀ (A B : List Source) (i : Nat), (∀ x ∈ A, x.valid = true) →
      visitIdx (A ++ B) i (i + A.length) = List.range' i A.length := by
  intro A
  induction A with
  | nil =>
    intro B i _
    cases B with
    | nil => simp [visitIdx]
    | cons b B => simp [visitIdx]
  | cons a A ih =>
    intro B i hval
    have ha : a.valid = true := hval a (by simp)
    rw [show ((a :: A) ++ B) = a :: (A ++ B) from rfl]
    rw [show visitIdx (a :: (A ++ B)) i (i + (a :: A).length)
          = (if a.valid then [i] else []) ++ visitIdx (A ++ B) (i + 1) (i + (a :: A).length)
      from by
        simp only [visitIdx, if_pos (show i < i + (a :: A).length from by simp)]]
    rw [ha]
    rw [show i + (a :: A).length = (i + 1) + A.length from by simp; omega]
    rw [ih B (i + 1) (fun x hx => hval x (by simp [hx]))]
    simp [List.range']


/-- C9 counterexample: register A and B, unregister A, then register C.
`rte_sampler_source_register` reuses the freed slot 0, so one sampling pass
visits C (slot 0) before B (slot 1), although B was registered before C —
the claim that sources are visited in registration order fails once an
unregister has freed an earlier slot. -/
theorem visit_order_counterexample :
    (visitOrder
        (rte_sampler_source_register
          (rte_sampler_source_unregister
            (rte_sampler_source_register
              (rte_sampler_source_register
                (rte_sampler_session_create ['t'] 0 0) ['A'] 0 false)
              ['B'] 1 false)
            0)
          ['C'] 2 false)).map (fun src => (src.name, src.source_id))
      = [(['C'], 2), (['B'], 1)]
    ∧ (visitOrder
        (rte_sampler_source_register
          (rte_sampler_source_unregister
            (rte_sampler_source_register
              (rte_sampler_source_register
                (rte_sampler_session_create ['t'] 0 0) ['A'] 0 false)
              ['B'] 1 false)
            0)
          ['C'] 2 false)).map (fun src => (src.name, src.source_id))
      ≠ [(['B'], 1), (['C'], 2)] := by
  refine ⟨by decide, by decide⟩

/-- C9 (amended): for histories consisting of registrations only (no
unregister), one `rte_sampler_sample` pass visits the valid sources in
registration order — the trace visits slots `0, 1, ..., n-1` in order and
slot `k` holds the k-th registered source — and likewise the fan-out loop
walks the sinks in registration order.  After an unregister, a later
registration may reuse the freed slot and be visited earlier than sources
registered before it. -/
theorem visit_order_registration :
    ∀ (regs sregs : List (List Char × Nat)) (nm : List Char) (interval duration : Nat)
      (adapters : Nat → AdapterResp) (outRet : Nat → Nat → Int),
      visitOrder (applySourceRegs (rte_sampler_session_create nm interval duration) regs)
        = regs.map (fun r => freshSource r.1 r.2 false)
      ∧ ((sampleSources
            (applySourceRegs (rte_sampler_session_create nm interval duration) regs).sinks
            (applySourceRegs (rte_sampler_session_create nm interval duration) regs).num_sinks
            adapters outRet
            (applySourceRegs (rte_sampler_session_create nm interval duration) regs).sources
            0
            (applySourceRegs (rte_sampler_session_create nm interval duration) regs).num_sources).2).map
          (fun t => t.1) = List.range regs.length
      ∧ sinkVisitOrder (applySinkRegs (rte_sampler_session_create nm interval duration) sregs)
        = sregs.map (fun r => freshSink r.1 r.2) := by
  intro regs sregs nm interval duration adapters outRet
  have hgood0 : GoodSrc (rte_sampler_session_create nm interval duration) [] := by
    refine ⟨rfl, rfl, by simp, ⟨INITIAL_SOURCES_PER_SESSION, rfl, by decide⟩⟩
  have hg := applySourceRegs_good regs (rte_sampler_session_create nm interval duration)
    [] hgood0
  rw [List.nil_append] at hg
  obtain ⟨hv, hnum, hval, m, hsrcs, hpos⟩ := hg
  have hgood0s : GoodSink (rte_sampler_session_create nm interval duration) [] := by
    refine ⟨rfl, rfl, by simp, ⟨INITIAL_SINKS_PER_SESSION, rfl, by decide⟩⟩
  have hgs := applySinkRegs_good sregs (rte_sampler_session_create nm interval duration)
    [] hgood0s
  rw [List.nil_append] at hgs
  obtain ⟨hvs, hnums, hvals, ms, hsinks, hposs⟩ := hgs
  refine ⟨?_, ?_, ?_⟩
  · rw [visitOrder, hsrcs, hnum]
    rw [take_append_of_len _ _ _ rfl]
    exact filter_valid_all_src _ hval
  · rw [sampleSources_trace_idx]
    rw [hsrcs, hnum]
    have hvis := visitIdx_all_valid (regs.map (fun r => freshSource r.1 r.2 false))
      (List.replicate m defaultSource) 0 hval
    rw [Nat.zero_add] at hvis
    rw [hvis]
    rw [← List.range_eq_range']
    simp
  · rw [sinkVisitOrder, hsinks, hnums]
    rw [take_append_of_len _ _ _ rfl]
    exact filter_valid_all_sink _ hvals


/-! ## C8: poll and session expiry -/

/-- 64-bit wrap-around modulus for `rte_get_timer_cycles()` arithmetic. -/
def U64 : Nat := 2 ^ 64

/-- `uint64_t` subtraction `a - b` (wrapping), for `a b < 2^64`. -/
def cyclesSub (a b : Nat) : Nat := (a + U64 - b) % U64

/-- `elapsed_ms = (now - t) * 1000 / hz` computed in `uint64_t` arithmetic
(rte_sampler.c:288-289 and 636-638). -/
def elapsedMs (now t hz : Nat) : Nat := cyclesSub now t * 1000 % U64 / hz

/-- Shallow embedding of `rte_sampler_session_is_active`
(rte_sampler.c:275-299).  Returns the C return value together with the
(possibly mutated) session: when a positive `duration_ms` has elapsed since
`start_time`, the function itself clears `active` and returns 0. -/
def rte_sampler_session_is_active (sess : Option Session) (now hz : Nat) :
    Int × Option Session :=
  match sess with
  | none => (-EINVAL, none)
  | some s =>
    if s.valid = false then (-EINVAL, some s)
    else if s.active = false then (0, some s)
    else if 0 < s.duration_ms then
      if s.duration_ms ≤ elapsedMs now s.start_time hz then
        (0, some { s with active := false })
      else (1, some s)
    else (1, some s)

/-- One iteration of the `rte_sampler_poll` loop body (rte_sampler.c:621-644)
on one registry slot: skip NULL and invalid sessions, skip sessions whose
`is_active` check returns 0 (the check may itself clear `active` on expiry),
skip manual sessions (`sample_interval_ms == 0`), and otherwise sample exactly
when the elapsed time since `last_sample_time` reaches the interval.  Returns
the contribution to `polled` and the slot's new state. -/
def pollOne (sess : Option Session) (adapters : Nat → AdapterResp)
    (outRet : Nat → Nat → Int) (now hz : Nat) : Nat × Option Session :=
  match sess with
  | none => (0, none)
  | some s =>
    if s.valid = false then (0, some s)
    else
      let r := rte_sampler_session_is_active (some s) now hz
      if r.1 = 0 then (0, r.2)
      else
        match r.2 with
        | none => (0, none)
        | some s2 =>
          if s2.sample_interval_ms = 0 then (0, some s2)
          else if s2.sample_interval_ms ≤ elapsedMs now s2.last_sample_time hz then
            (1, (rte_sampler_sample (some s2) adapters outRet now).2.1)
          else (0, some s2)

/-- The `for (i = 0; i < sampler_global.num_sessions; i++)` loop of
`rte_sampler_poll`, walking the registry slots in order and summing the
sampled count. -/
def pollList (adapters : Nat → AdapterResp) (outRet : Nat → Nat → Int)
    (now hz : Nat) : List (Option Session) → Nat × List (Option Session)
  | [] => (0, [])
  | sess :: rest =>
    let r := pollOne sess adapters outRet now hz
    let t := pollList adapters outRet now hz rest
    (r.1 + t.1, r.2 :: t.2)

/-- Shallow embedding of `rte_sampler_poll` (rte_sampler.c:613-647) over a
registry of `num` session slots (NULL slots modelled as `none`). -/
def rte_sampler_poll (sessions : List (Option Session)) (num : Nat)
    (adapters : Nat → AdapterResp) (outRet : Nat → Nat → Int) (now hz : Nat) :
    Nat × List (Option Session) :=
  let r := pollList adapters outRet now hz (sessions.take num)
  (r.1, r.2 ++ sessions.drop num)

/-- Spec-side criterion: poll samples a registry slot iff it holds a valid,
active, non-expired session with a positive interval whose elapsed time since
`last_sample_time` has reached the interval. -/
def shouldSample (sess : Option Session) (now hz : Nat) : Bool :=
  match sess with
  | none => false
  | some s =>
    s.valid && s.active
      && (decide (s.duration_ms = 0)
            || decide (elapsedMs now s.start_time hz < s.duration_ms))
      && decide (0 < s.sample_interval_ms)
      && decide (s.sample_interval_ms ≤ elapsedMs now s.last_sample_time hz)

theorem pollOne_count (sess : Option Session) (adapters : Nat → AdapterResp)
    (outRet : Nat → Nat → Int) (now hz : Nat) :
    (pollOne sess adapters outRet now hz).1
      = if shouldSample sess now hz then 1 else 0 := by
  match sess with
  | none => simp [pollOne, shouldSample]
  | some s =>
    by_cases hv : s.valid
    · by_cases ha : s.active
      · by_cases hd : 0 < s.duration_ms
        · by_cases he : s.duration_ms ≤ elapsedMs now s.start_time hz
          · have hd0 : ¬ s.duration_ms = 0 := by omega
            have he' : ¬ elapsedMs now s.start_time hz < s.duration_ms := by omega
            simp [pollOne, rte_sampler_session_is_active, shouldSample,
              hv, ha, hd, he, hd0, he']
          · have he' : elapsedMs now s.start_time hz < s.duration_ms := by omega
            by_cases hi : s.sample_interval_ms = 0
            · simp [pollOne, rte_sampler_session_is_active, shouldSample,
                hv, ha, hd, he, he', hi]
            · have hi' : 0 < s.sample_interval_ms := by omega
              by_cases hl : s.sample_interval_ms ≤ elapsedMs now s.last_sample_time hz
              · simp [pollOne, rte_sampler_session_is_active, shouldSample,
                  hv, ha, hd, he, he', hi, hi', hl]
              · simp [pollOne, rte_sampler_session_is_active, shouldSample,
                  hv, ha, hd, he, he', hi, hi', hl]
        · have hd0 : s.duration_ms = 0 := by omega
          by_cases hi : s.sample_interval_ms = 0
          · simp [pollOne, rte_sampler_session_is_active, shouldSample,
              hv, ha, hd, hd0, hi]
          · have hi' : 0 < s.sample_interval_ms := by omega
            by_cases hl : s.sample_interval_ms ≤ elapsedMs now s.last_sample_time hz
            · simp [pollOne, rte_sampler_session_is_active, shouldSample,
                hv, ha, hd, hd0, hi, hi', hl]
            · simp [pollOne, rte_sampler_session_is_active, shouldSample,
                hv, ha, hd, hd0, hi, hi', hl]
      · simp [pollOne, rte_sampler_session_is_active, shouldSample, hv, ha]
    · simp [pollOne, shouldSample, hv]

theorem pollList_count (adapters : Nat → AdapterResp) (outRet : Nat → Nat → Int)
    (now hz : Nat) :
    ∀ sessions : List (Option Session),
      (pollList adapters outRet now hz sessions).1
        = sessions.countP (fun sess => shouldSample sess now hz) := by
  intro sessions
  induction sessions with
  | nil => simp [pollList]
  | cons sess rest ih =>
    simp only [pollList, pollOne_count, ih, List.countP_cons]
    by_cases h : shouldSample sess now hz <;> simp [h] <;> omega


/-- C8: `rte_sampler_poll` samples exactly the registry slots holding a valid,
active, non-expired session whose positive `sample_interval_ms` has elapsed
since `last_sample_time`, and returns their number; a session whose positive
`duration_ms` has elapsed since `start_time` is set inactive by the
`is_active` check inside poll and returns 0; an inactive session is left
untouched by poll (so an expired session is never sampled again); a session
with `sample_interval_ms == 0` is never sampled; and on a slot meeting the
criterion poll invokes `rte_sampler_sample` on it, storing the sampled
session back. -/
theorem poll_spec :
    ∀ (sessions : List (Option Session)) (num : Nat)
      (adapters : Nat → AdapterResp) (outRet : Nat → Nat → Int) (now hz : Nat),
      (rte_sampler_poll sessions num adapters outRet now hz).1
        = (sessions.take num).countP (fun sess => shouldSample sess now hz)
      ∧ (∀ s : Session, s.valid = true → s.active = true → 0 < s.duration_ms →
          s.duration_ms ≤ elapsedMs now s.start_time hz →
          rte_sampler_session_is_active (some s) now hz
            = (0, some { s with active := false }))
      ∧ (∀ (s : Session) (now2 hz2 : Nat), s.active = false →
          pollOne (some s) adapters outRet now2 hz2 = (0, some s))
      ∧ (∀ s : Session, s.sample_interval_ms = 0 →
          (pollOne (some s) adapters outRet now hz).1 = 0)
      ∧ (∀ s : Session, shouldSample (some s) now hz = true →
          pollOne (some s) adapters outRet now hz
            = (1, (rte_sampler_sample (some s) adapters outRet now).2.1)) := by
  intro sessions num adapters outRet now hz
  refine ⟨?_, ?_, ?_, ?_, ?_⟩
  · simp only [rte_sampler_poll]
    exact pollList_count adapters outRet now hz (sessions.take num)
  · intro s hv ha hd he
    simp [rte_sampler_session_is_active, hv, ha, hd, he]
  · intro s now2 hz2 ha
    by_cases hv : s.valid
    · simp [pollOne, rte_sampler_session_is_active, hv, ha]
    · simp [pollOne, hv]
  · intro s hi
    rw [pollOne_count]
    simp [shouldSample, hi]
  · intro s hss
    simp only [shouldSample, Bool.and_eq_true, Bool.or_eq_true,
      decide_eq_true_eq] at hss
    obtain ⟨⟨⟨⟨hv, ha⟩, hde⟩, hi⟩, hl⟩ := hss
    have hi0 : ¬ s.sample_interval_ms = 0 := by omega
    by_cases hd : 0 < s.duration_ms
    · have he : ¬ s.duration_ms ≤ elapsedMs now s.start_time hz := by
        rcases hde with h0 | hlt <;> omega
      simp [pollOne, rte_sampler_session_is_active, hv, ha, hd, he, hi0, hl]
    · simp [pollOne, rte_sampler_session_is_active, hv, ha, hd, hi0, hl]

/-- Witness for C8: at `now = 20000`, `hz = 1000`, a session created with
interval 5 ms and duration 10 ms that was made active at time 0 is expired by
the `is_active` check, and a manual session (interval 0) contributes 0. -/
theorem poll_spec_witness :
    rte_sampler_session_is_active
        (some { rte_sampler_session_create ['e'] 5 10 with active := true })
        20000 1000
      = (0, some { { rte_sampler_session_create ['e'] 5 10 with active := true }
                   with active := false })
    ∧ (pollOne (some (rte_sampler_session_create ['m'] 0 0))
        (fun _ => ⟨0, false, false, false, false, AdapterRes.err 0, AdapterRes.err 0⟩)
        (fun _ _ => 0) 20000 1000).1 = 0 := by
  refine ⟨?_, ?_⟩
  · exact (poll_spec []
      0 (fun _ => ⟨0, false, false, false, false, AdapterRes.err 0, AdapterRes.err 0⟩)
      (fun _ _ => 0) 20000 1000).2.1 _ (by decide) (by decide) (by decide) (by decide)
  · exact (poll_spec []
      0 (fun _ => ⟨0, false, false, false, false, AdapterRes.err 0, AdapterRes.err 0⟩)
      (fun _ _ => 0) 20000 1000).2.2.2.1 _ (by decide)

end Sampler
